import Mathlib

/-!
Verification development for the cheap-research repository.

The Python modules `tools.py` and `config.py` are shallowly embedded below.
Filesystem state is modelled explicitly as a finite map from path-component
lists to file data plus a set of directories; `os.path` string functions
(`normpath`, `abspath`, `dirname`, `basename`, `relpath`, `join`, `splitext`)
are translated from CPython's posixpath implementations.  External
collaborators (the HTTP client, markdownify, pymupdf, Jinja2's renderer and
the latexmk subprocess) appear as explicit inputs or function parameters,
matching the spec's scoping of them as external.
-/

namespace CheapResearch

/-! ## Python string primitives

CPython strings are sequences of code points; the operations the source
uses (`startswith`, `endswith`, `split`, `lower`, single-character
`replace`, slicing) are modelled directly on the code-point list. -/

/-- Whether `pat` is a prefix of `s`. -/
def hasPrefixL : List Char → List Char → Bool
  | [], _ => true
  | _ :: _, [] => false
  | p :: ps, c :: cs => p = c && hasPrefixL ps cs

/-- Whether `pat` occurs as a contiguous substring of `s`
(Python's `pat in s`). -/
def hasInfixL (pat : List Char) : List Char → Bool
  | [] => hasPrefixL pat []
  | c :: cs => hasPrefixL pat (c :: cs) || hasInfixL pat cs

/-- Python `s.startswith(pre)`. -/
def pyStartsWith (s pre : String) : Bool := hasPrefixL pre.data s.data

/-- Python `s.endswith(suf)`. -/
def pyEndsWith (s suf : String) : Bool := hasPrefixL suf.data.reverse s.data.reverse

def splitOnCharAux (ch : Char) : List Char → List Char → List (List Char)
  | cur, [] => [cur.reverse]
  | cur, c :: cs =>
    if c = ch then cur.reverse :: splitOnCharAux ch [] cs
    else splitOnCharAux ch (c :: cur) cs

/-- Python `s.split(ch)` for a one-character separator. -/
def pySplit (s : String) (ch : Char) : List String :=
  (splitOnCharAux ch [] s.data).map String.mk

/-- Python `s.lower()` (as used here, on ASCII content). -/
def pyToLower (s : String) : String := String.mk (s.data.map Char.toLower)

/-- Python `s.replace(a, b)` for one-character arguments. -/
def replaceChar (s : String) (a b : Char) : String :=
  String.mk (s.data.map (fun c => if c = a then b else c))

/-! ## Path strings (posixpath translations) -/

/-- Index just past the last '/' in the list, 0 when there is none
(`p.rfind('/') + 1` in CPython's `posixpath.dirname`/`basename`). -/
def lastSlashPosAux : List Char → Nat → Nat → Nat
  | [], _, acc => acc
  | c :: cs, i, acc => lastSlashPosAux cs (i + 1) (if c = '/' then i + 1 else acc)

def lastSlashPos (l : List Char) : Nat := lastSlashPosAux l 0 0

/-- The component loop of `posixpath.normpath`: skips empty and `.` parts,
resolves `..` against the accumulator (kept reversed). -/
def normAux (isAbs : Bool) : List String → List String → List String
  | acc, [] => acc.reverse
  | acc, comp :: rest =>
    if comp = "" ∨ comp = "." then normAux isAbs acc rest
    else if comp ≠ ".." ∨ (¬ isAbs ∧ acc = []) ∨ (acc ≠ [] ∧ acc.headD "" = "..") then
      normAux isAbs (comp :: acc) rest
    else
      match acc with
      | _ :: tl => normAux isAbs tl rest
      | [] => normAux isAbs [] rest

/-- CPython `posixpath.normpath` for POSIX separators, including the special
treatment of exactly two leading slashes. -/
def normpath (p : String) : String :=
  if p = "" then "." else
  let isAbs := pyStartsWith p "/"
  let slashes : Nat :=
    if isAbs then (if pyStartsWith p "//" ∧ ¬ pyStartsWith p "///" then 2 else 1) else 0
  let comps := normAux isAbs [] (pySplit p '/')
  let res := String.mk (List.replicate slashes '/') ++ String.intercalate "/" comps
  if res = "" then "." else res

/-- CPython `posixpath.join` restricted to two arguments, as used in the source. -/
def pyJoin (a b : String) : String :=
  if pyStartsWith b "/" then b
  else if a = "" ∨ pyEndsWith a "/" then a ++ b
  else a ++ "/" ++ b

/-- CPython `posixpath.abspath` with the process working directory passed explicitly. -/
def abspath (cwd p : String) : String :=
  normpath (if pyStartsWith p "/" then p else pyJoin cwd p)

/-- CPython `posixpath.dirname`. -/
def pydirname (p : String) : String :=
  let i := lastSlashPos p.data
  let head := String.mk (p.data.take i)
  if head ≠ "" ∧ ¬ (head.data.all (fun c => c = '/')) then
    String.mk ((head.data.reverse.dropWhile (fun c => c = '/')).reverse)
  else head

/-- CPython `posixpath.basename`. -/
def pybasename (p : String) : String :=
  String.mk (p.data.drop (lastSlashPos p.data))

/-- Non-empty '/'-separated components of a path, as in
`[x for x in p.split(sep) if x]` inside `posixpath.relpath`. -/
def parts (p : String) : List String :=
  (pySplit p '/').filter (fun c => c ≠ "")

/-- Length of the common componentwise prefix (`os.path.commonprefix` on the
two component lists). -/
def commonLen : List String → List String → Nat
  | a :: as', b :: bs => if a = b then commonLen as' bs + 1 else 0
  | _, _ => 0

/-- CPython `posixpath.relpath path start` with the working directory passed
explicitly (used by `abspath` on relative arguments). -/
def relpath (cwd path start : String) : String :=
  let pl := parts (abspath cwd path)
  let sl := parts (abspath cwd start)
  let i := commonLen sl pl
  let rel := List.replicate (sl.length - i) ".." ++ pl.drop i
  if rel = [] then "." else String.intercalate "/" rel

/-- Last index of `ch`, -1 when absent (`str.rfind`). -/
def rfindPosAux (ch : Char) : List Char → Int → Int → Int
  | [], _, acc => acc
  | c :: cs, i, acc => rfindPosAux ch cs (i + 1) (if c = ch then i else acc)

def rfindPos (ch : Char) (l : List Char) : Int := rfindPosAux ch l 0 (-1)

/-- The root part of `posixpath.splitext`: the extension is split off at the
last dot only when a non-dot character precedes it within the basename. -/
def splitextRoot (p : String) : String :=
  let l := p.data
  let sepI := rfindPos '/' l
  let dotI := rfindPos '.' l
  if dotI > sepI then
    let mid := (l.drop (sepI + 1).toNat).take (dotI - sepI - 1).toNat
    if mid.any (fun c => c ≠ '.') then String.mk (l.take dotI.toNat) else p
  else p

/-- Being inside the working-directory tree in the sense of the spec's
containment property: the path is the working directory itself or lies
strictly below it.  (The code instead uses `String.startsWith cwd`.) -/
def inTreeB (cwd p : String) : Bool :=
  p = cwd || pyStartsWith p (cwd ++ "/")

/-! ## Output formatting helpers -/

/-- Two-digit zero padding used by `strftime`'s numeric fields. -/
def pad2 (n : Nat) : String :=
  if n < 10 then "0" ++ toString n else toString n

/-- One-decimal rendering of `n / d` rounding half to even, modelling
CPython's `f"{n / d:.1f}"` on the exact quotient (the binary double can
differ from the exact rational only at representation boundaries, which
the program's size buckets never pin down). -/
def fmt1 (n d : Nat) : String :=
  let num := n * 10
  let q := num / d
  let r := num % d
  let q := if 2 * r > d then q + 1 else if 2 * r < d then q else if q % 2 = 0 then q else q + 1
  toString (q / 10) ++ "." ++ toString (q % 10)

/-- The B/KB/MB size bucketing shared by `read_file` and `list_files`. -/
def sizeStr (size : Nat) : String :=
  if size < 1024 then toString size ++ " B"
  else if size < 1024 * 1024 then fmt1 size 1024 ++ " KB"
  else fmt1 size (1024 * 1024) ++ " MB"

/-- Civil date from days since 1970-01-01 (proleptic Gregorian),
giving (year, month, day). -/
def civilFromDays (days : Nat) : Nat × Nat × Nat :=
  let z := days + 719468
  let era := z / 146097
  let doe := z % 146097
  let yoe := (doe - doe / 1460 + doe / 36524 - doe / 146096) / 365
  let y := yoe + era * 400
  let doy := doe - (365 * yoe + yoe / 4 - yoe / 100)
  let mp := (5 * doy + 2) / 153
  let d := doy - (153 * mp + 2) / 5 + 1
  let m := if mp < 10 then mp + 3 else mp - 9
  (if m ≤ 2 then y + 1 else y, m, d)

/-- Python `datetime.fromtimestamp(t).strftime("%Y-%m-%d %H:%M:%S")` for a
non-negative POSIX timestamp, with the process clock taken as UTC. -/
def timeStr (t : Nat) : String :=
  let days := t / 86400
  let secs := t % 86400
  let ymd := civilFromDays days
  toString ymd.1 ++ "-" ++ pad2 ymd.2.1 ++ "-" ++ pad2 ymd.2.2 ++ " " ++
    pad2 (secs / 3600) ++ ":" ++ pad2 (secs % 3600 / 60) ++ ":" ++ pad2 (secs % 60)

/-- Code-point lexicographic order, matching CPython string comparison
used by `sorted`. -/
def lexLe : List Char → List Char → Bool
  | [], _ => true
  | _ :: _, [] => false
  | a :: as', b :: bs => if a = b then lexLe as' bs else decide (a.toNat < b.toNat)

def insSorted (x : String) : List String → List String
  | [] => [x]
  | y :: ys => if lexLe x.data y.data then x :: y :: ys else y :: insSorted x ys

/-- Stable sort in code-point order (`sorted` in the source). -/
def sortStr (l : List String) : List String := l.foldr insSorted []

/-- The ordering relation under which `sortStr` sorts: code-point
lexicographic comparison of the two strings. -/
def strLeP (a b : String) : Prop := lexLe a.data b.data = true

/-! ## Filesystem model

Paths are keyed by their non-empty '/'-separated component lists, the form
in which a POSIX kernel resolves them; the tools still perform all of their
own string manipulation exactly as the Python does.  Directory and file
entries are disjoint in every state the tools construct.  `now` is the
process clock, stamped onto files at write time. -/

structure FileData where
  content : String
  mtime : Nat
deriving Repr

structure FS where
  dirs : List (List String)
  files : List (List String × FileData)
  now : Nat
deriving Repr

def findFile : List (List String × FileData) → List String → Option FileData
  | [], _ => none
  | (k, d) :: rest, q => if k = q then some d else findFile rest q

def setFile : List (List String × FileData) → List String → FileData → List (List String × FileData)
  | [], k, d => [(k, d)]
  | (k', d') :: rest, k, d => if k' = k then (k, d) :: rest else (k', d') :: setFile rest k d

/-- Models `os.path.exists`. -/
def pathExistsB (fs : FS) (p : String) : Bool :=
  parts p = [] || parts p ∈ fs.dirs || (findFile fs.files (parts p)).isSome

/-- Models `os.path.isdir` (the root always is one). -/
def isdirB (fs : FS) (p : String) : Bool :=
  parts p = [] || parts p ∈ fs.dirs

/-- Models `os.path.isfile`. -/
def isfileB (fs : FS) (p : String) : Bool :=
  (findFile fs.files (parts p)).isSome && !(parts p ∈ fs.dirs : Bool)

def lastName (l : List String) : String := l.getLastD ""

/-- Models `os.listdir` on the directory keyed by `k`: the names of entries whose
parent is `k`.  A real kernel returns these in unspecified order; the tool
sorts before displaying, so the model's order (directories in store order,
then files) is immaterial. -/
def childrenNames (fs : FS) (k : List String) : List String :=
  ((fs.dirs.filter (fun d => d ≠ [] ∧ d.dropLast = k)).map lastName) ++
    (((fs.files.map Prod.fst).filter (fun f => f ≠ [] ∧ f.dropLast = k)).map lastName)

/-- Models `os.makedirs(path, exist_ok=True)`: walk the component prefixes top-down,
creating missing directories, and fail (second component `false`, modelling
the raised `OSError`) at the first prefix occupied by a regular file. -/
def mkdirsAux (files : List (List String × FileData)) :
    List (List String) → List String → List String → List (List String) × Bool
  | dirs, _, [] => (dirs, true)
  | dirs, pre, c :: cs =>
    let p := pre ++ [c]
    if (findFile files p).isSome then (dirs, false)
    else mkdirsAux files (if p ∈ dirs then dirs else dirs ++ [p]) p cs

def makedirs (fs : FS) (k : List String) : FS × Bool :=
  let r := mkdirsAux fs.files fs.dirs [] k
  ({ fs with dirs := r.1 }, r.2)

/-- Models `open(path, 'w')` followed by a full write: fails (`none`, modelling
`IsADirectoryError` / `NotADirectoryError`) when the target is a directory
or its parent is not one; otherwise replaces or creates the file, stamping
the current clock as its modification time. -/
def openWrite (fs : FS) (k : List String) (content : String) : Option FS :=
  if k = [] ∨ k ∈ fs.dirs then none
  else if ¬ (k.dropLast = [] ∨ k.dropLast ∈ fs.dirs) then none
  else some { fs with files := setFile fs.files k ⟨content, fs.now⟩, now := fs.now + 1 }

/-- Outcome of a tool call: a returned message (`ret`) or an exception that
escapes the tool body (`exc`), each with the filesystem it leaves behind. -/
inductive PyResult where
  | ret (msg : String) (fs : FS)
  | exc (msg : String) (fs : FS)
deriving Repr

/-! ## File tools (`tools.py`: `create_file`, `read_file`, `list_files`) -/

/-- Embeds `tools.create_file`.  The `os.makedirs` call sits outside the `try`
block in the source, so its failure escapes as an exception; only the
`open`/`write` failures are caught and turned into an error return.  The
caught exception text is summarised as its exception class name. -/
def create_file (cwd : String) (fs : FS) (content filename : String) : PyResult :=
  let file_path := abspath cwd (normpath filename)
  if ¬ pyStartsWith file_path cwd then
    .ret ("Error: Cannot write files outside the current working directory. Path: " ++ filename) fs
  else
    let directory := pydirname file_path
    let mk : FS × Bool :=
      if directory ≠ "" ∧ ¬ pathExistsB fs directory then makedirs fs (parts directory)
      else (fs, true)
    if mk.2 = false then .exc "OSError" mk.1
    else
      match openWrite mk.1 (parts file_path) content with
      | some fs2 => .ret ("File successfully created at: " ++ relpath cwd file_path cwd) fs2
      | none => .ret ("Error creating file: OSError") mk.1

/-- Embeds `tools.read_file`.  File contents are modelled at text level, so the
`UnicodeDecodeError` branch (a byte-level phenomenon) has no inhabitant in
the model; the `encoding` parameter is carried for signature fidelity. -/
def read_file (cwd : String) (fs : FS) (filename : String) (encoding : String := "utf-8") :
    PyResult :=
  let file_path := abspath cwd (normpath filename)
  if ¬ pyStartsWith file_path cwd then
    .ret ("Error: Cannot read files outside the current working directory. Path: " ++ filename) fs
  else if ¬ pathExistsB fs file_path then
    .ret ("Error: File does not exist: " ++ filename) fs
  else if ¬ isfileB fs file_path then
    .ret ("Error: '" ++ filename ++ "' is not a file.") fs
  else
    match findFile fs.files (parts file_path) with
    | some d =>
      let metadata := "File: " ++ relpath cwd file_path cwd ++ " (" ++
        sizeStr d.content.utf8ByteSize ++ ", last modified: " ++ timeStr d.mtime ++ ")\n\n"
      .ret (metadata ++ d.content) fs
    | none => .ret ("Error reading file: OSError") fs

/-- The per-file annotation line built inside `list_files`. -/
def fileEntry (fs : FS) (target f : String) : String :=
  let d := (findFile fs.files (parts (pyJoin target f))).getD ⟨"", 0⟩
  "  📄 " ++ f ++ " (" ++ sizeStr d.content.utf8ByteSize ++ ", " ++ timeStr d.mtime ++ ")"

/-- Embeds `tools.list_files`. -/
def list_files (cwd : String) (fs : FS) (directory : String := "") : PyResult :=
  let td : Option (String × String) :=
    if directory = "" then some (cwd, ".")
    else
      let target := abspath cwd (normpath directory)
      if ¬ pyStartsWith target cwd then none
      else if ¬ pathExistsB fs target then none
      else some (target, relpath cwd target cwd)
  match td with
  | none =>
    if ¬ pyStartsWith (abspath cwd (normpath directory)) cwd then
      .ret ("Error: Cannot list files outside the current working directory. Path: " ++ directory) fs
    else
      .ret ("Error: Directory does not exist: " ++ directory) fs
  | some (target, relDir) =>
    if ¬ isdirB fs target then
      .ret ("Error: '" ++ relDir ++ "' is not a directory.") fs
    else
      let items := childrenNames fs (parts target)
      if items = [] then .ret ("No files found in directory: " ++ relDir) fs
      else
        let ds := items.filter (fun it => isdirB fs (pyJoin target it))
        let fls := items.filter (fun it => ¬ isdirB fs (pyJoin target it))
        let res0 := ["Files and directories in '" ++ relDir ++ "':\n"]
        let res1 := if ds ≠ [] then
          res0 ++ ["Directories:"] ++ (sortStr ds).map (fun d => "  📁 " ++ d ++ "/") else res0
        let res2 := if fls ≠ [] then
          res1 ++ ["\nFiles:"] ++ (sortStr fls).map (fileEntry fs target) else res1
        .ret (String.intercalate "\n" res2) fs

/-! ## Compiler invoker (`tools.compile_latex_document`)

The `latexmk` subprocess is an external collaborator: its availability is a
boolean input and the compilation run is a function from the pre-state,
working directory and filename to an exit code, captured stdout and the
post-state it leaves on disk. -/

def errorLinesMsg (out : String) : String :=
  let ls := (pySplit out '\n').filter (fun l => hasInfixL "error".data (pyToLower l).data)
  if ls ≠ [] then String.intercalate "\n" ls else "Unknown compilation error"

def compile_latex_document (latexmkOk : Bool) (run : FS → String → String → Nat × String × FS)
    (cwd : String) (fs : FS) (tex_file_path : String) : PyResult :=
  let file_path := abspath cwd (normpath tex_file_path)
  if ¬ pyStartsWith file_path cwd then
    .ret ("Error: Cannot compile files outside the current working directory. Path: " ++
      tex_file_path) fs
  else if ¬ pathExistsB fs file_path then
    .ret ("Error: File does not exist: " ++ tex_file_path) fs
  else if ¬ pyEndsWith file_path ".tex" then
    .ret ("Error: '" ++ tex_file_path ++ "' is not a LaTeX (.tex) file.") fs
  else
    let file_dir := pydirname file_path
    let filename := pybasename file_path
    if ¬ latexmkOk then
      .ret "Error: latexmk is not installed or not available in the system PATH." fs
    else
      let r := run fs file_dir filename
      let pdf_path := pyJoin file_dir (splitextRoot filename ++ ".pdf")
      if r.1 ≠ 0 ∨ ¬ pathExistsB r.2.2 pdf_path then
        .ret ("LaTeX compilation failed: " ++ errorLinesMsg r.2.1) r.2.2
      else
        .ret ("LaTeX document successfully compiled: " ++ relpath cwd pdf_path cwd) r.2.2

/-! ## Web fetchers: deterministic post-processing pipelines

The network fetch and the conversion libraries are external; the model takes
their output (`body`) as input and performs the source's own
transformations. -/

def truncMarker : String := "\n\n[Content truncated due to length...]"

def maxOutputLength : Nat := 100000

/-- Python `s[:n]` on code points. -/
def pyTake (s : String) (n : Nat) : String := String.mk (s.data.take n)

/-- Python `str.strip()` (leading/trailing whitespace removal). -/
def pyStrip (s : String) : String :=
  String.mk (((s.data.dropWhile Char.isWhitespace).reverse.dropWhile Char.isWhitespace).reverse)

/-- The scanner semantics of `re.sub(r"\n{3,}", "\n\n", s)`: each maximal
run of three or more newlines is replaced by exactly two.  `n` counts the
newlines of the run currently being read. -/
def collapseGo : Nat → List Char → List Char
  | n, [] => List.replicate (if n ≥ 3 then 2 else n) '\n'
  | n, c :: cs =>
    if c = '\n' then collapseGo (n + 1) cs
    else List.replicate (if n ≥ 3 then 2 else n) '\n' ++ c :: collapseGo 0 cs

def pyCollapseNewlines (s : String) : String := String.mk (collapseGo 0 s.data)

/-- Python `str.encode("ascii", "replace").decode("utf-8")`: every non-ASCII code
point becomes '?'. -/
def asciiReplace (s : String) : String :=
  String.mk (s.data.map (fun c => if c.toNat ≤ 127 then c else '?'))

/-- The successful-response body of `tools.visit_webpage` after
`markdownify`: strip, collapse blank-line runs, prefix the source URL,
then truncate the whole prefixed text at the ceiling. -/
def visitFinalize (url body : String) : String :=
  let md := pyCollapseNewlines (pyStrip body)
  let md := "Source: " ++ url ++ "\n\n" ++ md
  if md.length > maxOutputLength then pyTake md maxOutputLength ++ truncMarker else md

/-- The successful-response body of `tools.extract_pdf_text` after
`pymupdf4llm.to_markdown`: ASCII-replace, truncate at the ceiling, then
prefix the source URL. -/
def pdfFinalize (url body : String) : String :=
  let md := asciiReplace body
  let md := if md.length > maxOutputLength then pyTake md maxOutputLength ++ truncMarker else md
  "PDF Source: " ++ url ++ "\n\n" ++ md

/-! ## Document assembler (`tools.create_latex_document`)

Jinja2 is external: template rendering is a function parameter from the
variables the source passes (`template_data`) to the rendered text, and
`env.get_template` failing on a missing template file is the modelled
exception caught by the surrounding `try`. -/

structure TemplateData where
  title : Option String
  author : Option String
  date : Option String
  sections : List String
  abstract : Option String
  institute : Option String
deriving Repr

/-- Python truthiness of an optional string argument (`if abstract:`):
absent and empty strings are falsy. -/
def pyTruthyOpt : Option String → Bool
  | none => false
  | some s => s ≠ ""

/-- The section-validation loop: returns (valid relative include paths,
missing inputs), each in traversal order. -/
def validateSections (fs : FS) (cwd outdir : String) : List String → List String × List String
  | [] => ([], [])
  | s :: rest =>
    let r := validateSections fs cwd outdir rest
    let section_path := pyJoin cwd s
    if pathExistsB fs section_path ∧ isfileB fs section_path then
      ((replaceChar (relpath cwd section_path outdir) '\\' '/') :: r.1, r.2)
    else (r.1, s :: r.2)

def create_latex_document (render : TemplateData → String)
    (templates_dir : String) (available_templates : List String)
    (cwd : String) (fs : FS) (template_type output_filename : String)
    (section_files : List String)
    (title author date abstract institute : Option String) : PyResult :=
  if ¬ template_type ∈ available_templates then
    .ret ("Error: Invalid template type '" ++ template_type ++ "'. Available templates: " ++
      String.intercalate ", " available_templates) fs
  else if ¬ isfileB fs (pyJoin templates_dir (template_type ++ ".tex.j2")) then
    .ret ("Error creating LaTeX document: " ++ template_type ++ ".tex.j2") fs
  else
    let outdir := pydirname (pyJoin cwd output_filename)
    let v := validateSections fs cwd outdir section_files
    if v.2 ≠ [] then
      .ret ("Error: The following section files do not exist: " ++
        String.intercalate ", " v.2) fs
    else
      let abstractCheck : Option (Option String) :=
        if pyTruthyOpt abstract then
          let a := abstract.getD ""
          let abs_abstract_path := pyJoin cwd a
          if pathExistsB fs abs_abstract_path ∧ isfileB fs abs_abstract_path then
            some (some (replaceChar (relpath cwd abs_abstract_path outdir) '\\' '/'))
          else none
        else some none
      match abstractCheck with
      | none => .ret ("Error: Abstract file does not exist: " ++ abstract.getD "") fs
      | some abstract_path =>
        let out_name :=
          if ¬ pyEndsWith output_filename ".tex" then output_filename ++ ".tex" else output_filename
        let output_path := pyJoin cwd out_name
        let td0 : TemplateData :=
          { title := title, author := author, date := date, sections := v.1,
            abstract := none, institute := none }
        let td :=
          if template_type = "article" ∧ abstract_path.isSome then
            { td0 with abstract := abstract_path }
          else if template_type = "beamer" ∧ pyTruthyOpt institute then
            { td0 with institute := institute }
          else td0
        match openWrite fs (parts output_path) (render td) with
        | none => .ret "Error creating LaTeX document: OSError" fs
        | some fs2 =>
          .ret ("LaTeX document successfully created at: " ++ relpath cwd output_path cwd ++
            "\nTemplate used: " ++ template_type ++
            "\nSection files included: " ++ toString v.1.length ++
            "\nYou can now compile this LaTeX document to generate the final output.") fs2

/-! ## Configuration store (`config.py`)

TOML values as they occur in `DEFAULTS`: booleans, strings, string lists and
nested tables.  Tables are ordered key/value sequences, matching Python
dicts (insertion order preserved; `config[key] = v` on a missing key
appends). -/

mutual
inductive Toml where
  | bool : Bool → Toml
  | str : String → Toml
  | list : List String → Toml
  | table : TomlTable → Toml
inductive TomlTable where
  | nil : TomlTable
  | cons : String → Toml → TomlTable → TomlTable
end

def tt : List (String × Toml) → TomlTable :=
  fun l => l.foldr (fun p acc => .cons p.1 p.2 acc) .nil

def lookupT : TomlTable → String → Option Toml
  | .nil, _ => none
  | .cons k v rest, q => if k = q then some v else lookupT rest q

/-- Replace the value at the first occurrence of `q` (in-place dict update). -/
def setT : TomlTable → String → Toml → TomlTable
  | .nil, _, _ => .nil
  | .cons k v rest, q, nv => if k = q then .cons k nv rest else .cons k v (setT rest q nv)

/-- Append a fresh key at the end (`config[key] = value` on a missing key). -/
def snocT : TomlTable → String → Toml → TomlTable
  | .nil, k, v => .cons k v .nil
  | .cons k' v' rest, k, v => .cons k' v' (snocT rest k v)

/-- Embeds `ConfigManager.ensure_defaults`'s `update_recursively`, returning the
updated configuration and the `changed` flag: missing keys are appended
with their default value; a key present in both as a table is merged
recursively; any other present key is left untouched. -/
def ensureTbl : TomlTable → TomlTable → TomlTable × Bool
  | config, .nil => (config, false)
  | config, .cons k dv rest =>
    match lookupT config k with
    | none =>
      let r := ensureTbl (snocT config k dv) rest
      (r.1, true)
    | some cv =>
      match dv, cv with
      | .table dt, .table ct =>
        let s := ensureTbl ct dt
        let r := ensureTbl (setT config k (.table s.1)) rest
        (r.1, s.2 || r.2)
      | _, _ => ensureTbl config rest

/-- Whether every key path of `defaults` (recursively through nested
tables) is present in `config`; formalises the spec's invariant that the
loaded configuration contains the whole default key structure. -/
def containsDefs : TomlTable → TomlTable → Bool
  | _, .nil => true
  | config, .cons k dv rest =>
    (match lookupT config k, dv with
     | none, _ => false
     | some (.table ct), .table dt => containsDefs ct dt
     | some _, .table _ => false
     | some _, _ => true) && containsDefs config rest

/-- Type compatibility of a persisted configuration with the defaults:
wherever the defaults hold a table, a persisted value at that key, when
present, is also a table (recursively). -/
def compatB : TomlTable → TomlTable → Bool
  | _, .nil => true
  | config, .cons k dv rest =>
    (match dv, lookupT config k with
     | .table dt, some cv =>
       match cv with
       | .table ct => compatB ct dt
       | _ => false
     | _, _ => true) && compatB config rest

def keysT : TomlTable → List String
  | .nil => []
  | .cons k _ rest => k :: keysT rest

/-- No duplicate keys at any table level. -/
def nodupKeysB : TomlTable → Bool
  | .nil => true
  | .cons k v rest =>
    !(decide (k ∈ keysT rest)) &&
      (match v with | .table t => nodupKeysB t | _ => true) && nodupKeysB rest

/-- Path lookup through nested tables. -/
def lookupPath (t : TomlTable) : List String → Option Toml
  | [] => none
  | [k] => lookupT t k
  | k :: rest =>
    match lookupT t k with
    | some (.table sub) => lookupPath sub rest
    | _ => none

def isTableV : Toml → Bool
  | .table _ => true
  | _ => false

/-- The built-in `DEFAULTS` structure of `config.py`, parameterized by the
per-user templates directory path it embeds. -/
def DEFAULTS (templates_dir : String) : TomlTable := tt [
  ("initialized",
    Toml.bool false),
  ("orchestrator",
    Toml.table (tt [
      ("model",
        Toml.str "openrouter/anthropic/claude-3.7-sonnet"),
      ("api_key",
        Toml.str ""),
      ("additional_system_prompt",
        Toml.str "As an expert PhD-level researcher, you will coordinate a team of research assistant agents with specialized tools to gather and analyze information on a given topic. Your goal is to produce a comprehensive and well-researched report on the topic.\nYour report should include diagrams, tables, and other visual elements when appropriate.\nThere should be on average at least one diagram or table per section unless you have a good reason not to include one.\nNote that your assistants have no memory of previous interactions, so you will need to ensure that they have all the information they need to complete their tasks.\nYou will ensure that all information is appropriately cited and that the report is well-structured and easy to read.\nAll citations must be verified by your research assistants.Break up your research into smaller tasks and assign them to your research assistant agents. For example, you can have one task about gathering relevant web pages, and then have other tasks about analyzing and summarizing the information on those web pages.\nThe workflow should be as such: \n 1. Gather relevant information. Prefer academic sources.\n 2. Use the web_page_agent to visit the web pages and save the content to files. Make sure to check the files using the list_files tool. Note that arXiv offers a HTML version of papers; this is preferable to the PDF version. They are accessible at https://arxiv.org/html/<arxiv_id>.  3. Use the writing_agent to create a references.bib file with  citations if it does not already exist, and add any new citations to it.\n 4. If there is insufficient information, repeat steps 1, 2, and 3.\n 5. Plan the structure of the report and the content of each section.\n 6. Make figures using the plotting_agent as appropriate. You can also use TikZ to make diagrams by simply passing the TikZ code to the writing agent.\n 7. Use the writing_agent to write each section or slide in separate tex files with appropriate \\section\x7b\x7d commands. Make sure to check the files using the list_files tool. You are better at making diagrams than the writing_agent, so if you expect a TikZ diagram, include it in the prompt. Remind the writing_agent to use \\cite\x7b\x7d commands to cite references and to check references.bib for the correct citation keys. Also remind the writing_agent that it should not use the \\begin\x7bdocument\x7d and \\end\x7bdocument\x7d commands when writing sections. IMPORTANT: You must remind the writing agent to only use citation keys that are in the references.bib file, and to refer to the references.bib file, the other tex files, and the information collected from the web search agent. 8. Remind the writing agent to verify that all citation keys are from the references.bib file. If additional citations are needed, repeat steps 1 and 2.\n 9. Use the create_latex_document tool to combine all the sections into a complete LaTeX document using either the article or beamer template, depending on the task.\n 10. Use the compile_latex_document tool to compile the LaTeX document into a PDF.\nEnsure that you finish all of the above steps before returning the final answer.\n"),
      ("reminders",
        Toml.str "REMINDER: The references.bib file must be created before writing the sections.\nREMINDER: Remind the writing_agent to only use citation keys that are in references.bib.\nREMINDER: Remind the writing_agent to read references.bib, the other tex files, and the information collected from the web search agent.\nREMINDER: Remind the writing_agent to verify that all citation keys are from references.bib before combining the sections.\nREMINDER: Use plots, diagrams, and tables to make the document more engaging.\n")])),
  ("web_search",
    Toml.table (tt [
      ("model",
        Toml.str "openrouter/mistralai/mistral-small-3.1-24b-instruct"),
      ("api_key",
        Toml.str ""),
      ("additional_system_prompt",
        Toml.str "Respond in a very concise manner. Ensure that your responses are as short as possible while retaining all necessary information.\nMake sure to include the full URL of any webpages you collect.\n")])),
  ("web_page",
    Toml.table (tt [
      ("model",
        Toml.str "openrouter/mistralai/mistral-small-3.1-24b-instruct"),
      ("api_key",
        Toml.str ""),
      ("additional_system_prompt",
        Toml.str "Respond in a very concise manner. Ensure that your responses are as short as possible while retaining all necessary information.\nMake sure you do not include unnecessary formatting carried over from the webpage. This cannot be done by coding, so you must manually remove it and otherwise clean up the text.\nThis means that you should not directly save the webpage content to a file without first cleaning it up!\nUse the create_file tool to save the page content to a file in the specified location. Use markdown files for webpage content and choose a short filename based on the page title.\nDo not pass a variable from another tool directly to the create_file tool. Instead, this tool should be called with your own writing, which should be the cleaned up content of the webpage that you have visited.\nInclude the filename in your response.\nUse the extract_pdf_text if the webpage is a PDF.\nIf you encounter an error, report it to your manager and ask for help. Do not attempt to fix the error yourself.\nDo NOT use coding to clean up content. Write it yourself. Do NOT use strip to clean up content. Write it yourself. As you are very hardworking, you should be able to write long documents without making mistakes.\nIMPORTANT: Within the file, make sure to include sufficient information to fully cite the webpage, including the URL, author, DOI, title, and date of publication, when available.\n")])),
  ("writing",
    Toml.table (tt [
      ("model",
        Toml.str "openrouter/anthropic/claude-3.5-haiku"),
      ("api_key",
        Toml.str ""),
      ("additional_system_prompt",
        Toml.str "As a specialized writing assistant, you can read files, list available files, and create new files with content.\nWhen writing content, follow these guidelines:\n- Use clear, concise language appropriate for the requested content type\n- Properly attribute any sources used in your writing. If you are writing a LaTeX document, use the \\cite\x7b\x7d command to cite sources, as there will be a separate .bib file for references. Read the references.bib file to ensure that you know which references are available. If you need a new reference, ask your manager to add it to the references.bib file.\n- For LaTeX files, be sure to include the appropriate \\section\x7b\x7d commands in each file if the content is for a document, or the appropriate \\begin\x7bframe\x7d and \\end\x7bframe\x7d commands if the content is for a presentation.\n- When writing a LaTeX document, do not split content into too many small subsections. Instead, organize the content as peer-reviewed articles do.\n- Format content appropriately based on the file type and purpose.\n- For markdown files, use proper markdown syntax for headings, lists, etc.\n- Always save files with appropriate extensions (.md, .tex, .bib, etc.)\n- Include the filename in your response.\n- Unless requested, do not include the whole file content in your response; instead, provide a brief summary of the content.\n- Minimize use of lists or numbered lists. Instead, write the content in a coherent paragraph.\n- IMPORTANT: Make sure to review other files in the directory to ensure consistency and coherence. This includes both other LaTeX files and files that contain paper summaries.- Use tables to organize data when appropriate.\n")])),
  ("plotting",
    Toml.table (tt [
      ("model",
        Toml.str "openrouter/anthropic/claude-3.5-haiku"),
      ("api_key",
        Toml.str ""),
      ("additional_system_prompt",
        Toml.str "You are skilled at data visualization and can create matplotlib code to generate plots.\nMake sure to save the plot either as a .png or a .pdf file.\nInclude the filename in your response.\nIf you are unable to make your code work, try asking your manager for help.\n")])),
  ("file_saving",
    Toml.table (tt [
      ("enabled",
        Toml.bool true)])),
  ("file_listing",
    Toml.table (tt [
      ("enabled",
        Toml.bool true),
      ("show_file_sizes",
        Toml.bool true),
      ("show_modification_times",
        Toml.bool true)])),
  ("latex",
    Toml.table (tt [
      ("templates_directory",
        Toml.str templates_dir),
      ("available_templates",
        Toml.list ["article", "beamer"]),
      ("default_template",
        Toml.str "article")]))]

/-- Embeds `ConfigManager.__init__` up to the defaults merge: when no persisted
file exists the defaults are written and loaded back (the TOML round trip
being faithful); otherwise the persisted table is loaded.  Then
`ensure_defaults` merges, and the merged table is saved exactly when the
`changed` flag is set.  Returns the loaded configuration and that flag. -/
def configManagerInit (templates_dir : String) (persisted : Option TomlTable) :
    TomlTable × Bool :=
  ensureTbl (persisted.getD (DEFAULTS templates_dir)) (DEFAULTS templates_dir)

/-! ## Fixtures and induction principles used by the verification -/

def c2fs : FS :=
  ⟨[["home"], ["home", "user"], ["home", "cfg"], ["home", "cfg", "templates"], ["tmp"]],
   [(["home", "cfg", "templates", "article.tex.j2"], ⟨"TEMPLATE", 7⟩)], 0⟩

def c2fsAfter : FS :=
  ⟨[["home"], ["home", "user"], ["home", "cfg"], ["home", "cfg", "templates"], ["tmp"]],
   [(["home", "cfg", "templates", "article.tex.j2"], ⟨"TEMPLATE", 7⟩),
    (["tmp", "evil.tex"], ⟨"RENDERED", 0⟩)], 1⟩

def c10fs : FS :=
  ⟨[["w"], ["cfg"]], [(["cfg", "beamer.tex.j2"], ⟨"T", 0⟩), (["w", "abs.tex"], ⟨"A", 0⟩)], 3⟩

def c5fs : FS :=
  ⟨[["w"], ["cfg"]], [(["cfg", "article.tex.j2"], ⟨"T", 0⟩), (["w", "sec1.tex"], ⟨"S", 0⟩)], 0⟩

/-- Checker for "no run of three or more consecutive newlines": walks the
list tracking the current newline-run length `r` and demands every maximal
run stay at most 2 (i.e. at most one blank line between content). -/
def runsLe2 : Nat → List Char → Bool
  | r, [] => decide (r ≤ 2)
  | r, c :: cs => if c = '\n' then runsLe2 (r + 1) cs else decide (r ≤ 2) && runsLe2 0 cs

def bigA : String := String.mk (List.replicate 100001 'a')

/-- Spine induction for `TomlTable` (no descent into nested tables). -/
def TomlTable.spineInd {motive : TomlTable → Prop} (hnil : motive .nil)
    (hcons : ∀ k v rest, motive rest → motive (.cons k v rest)) : ∀ t, motive t
  | .nil => hnil
  | .cons k v rest => hcons k v rest (TomlTable.spineInd hnil hcons rest)

/-- Deep induction for `TomlTable`: nested tables get their own hypothesis. -/
def TomlTable.deepInd {motive : TomlTable → Prop} (hnil : motive .nil)
    (hconsT : ∀ k t rest, motive t → motive rest → motive (.cons k (.table t) rest))
    (hconsB : ∀ k b rest, motive rest → motive (.cons k (.bool b) rest))
    (hconsS : ∀ k s rest, motive rest → motive (.cons k (.str s) rest))
    (hconsL : ∀ k l rest, motive rest → motive (.cons k (.list l) rest)) : ∀ t, motive t
  | .nil => hnil
  | .cons k (.table t) rest =>
    hconsT k t rest (TomlTable.deepInd hnil hconsT hconsB hconsS hconsL t)
      (TomlTable.deepInd hnil hconsT hconsB hconsS hconsL rest)
  | .cons k (.bool b) rest =>
    hconsB k b rest (TomlTable.deepInd hnil hconsT hconsB hconsS hconsL rest)
  | .cons k (.str s) rest =>
    hconsS k s rest (TomlTable.deepInd hnil hconsT hconsB hconsS hconsL rest)
  | .cons k (.list l) rest =>
    hconsL k l rest (TomlTable.deepInd hnil hconsT hconsB hconsS hconsL rest)

def c8fs : FS :=
  ⟨[["w"], ["w", "sub"]],
   [(["w", "b.txt"], ⟨"xyz", 0⟩), (["w", "a.txt"], ⟨"hi", 0⟩)], 9⟩

def c7fs : FS := ⟨[["w"]], [(["w", "doc.tex"], ⟨"T", 0⟩)], 0⟩

def c7fsAfter : FS := ⟨[["w"]], [(["w", "doc.tex"], ⟨"T", 0⟩), (["w", "doc.pdf"], ⟨"P", 1⟩)], 0⟩

/-- A latexmk run that succeeds and deposits the PDF. -/
def c7run : FS → String → String → Nat × String × FS :=
  fun fs _ _ => (0, "", { fs with files := fs.files ++ [(["w", "doc.pdf"], ⟨"P", 1⟩)] })

def c8empty : FS := ⟨[["w"]], [], 0⟩

def c8emptySub : FS := ⟨[["w"], ["w", "e"]], [], 0⟩

/-! ## Claim C1: path containment of the file tools -/

/-- C1 (counterexample).  The claim quantifies over every path whose
normalized absolute form lies outside the working-directory tree, but the
code's guard is `file_path.startswith(cwd)`, a bare string-prefix test.
With working directory `/home/user`, the input `../userX/secret`
normalizes to `/home/userX/secret` — outside the tree — yet shares the
string prefix, so `create_file` performs the write and reports success
instead of a containment violation. -/
theorem c1_prefix_escape_counterexample :
    inTreeB "/home/user" (abspath "/home/user" (normpath "../userX/secret")) = false ∧
    create_file "/home/user" ⟨[["home"], ["home", "user"]], [], 0⟩ "hi" "../userX/secret" =
      .ret "File successfully created at: ../userX/secret"
        ⟨[["home"], ["home", "user"], ["home", "userX"]],
         [(["home", "userX", "secret"], ⟨"hi", 0⟩)], 1⟩ :=
  ⟨by decide, rfl⟩

/-- C1 (amended).  For every input path whose normalized absolute form does
not have the working directory as a string prefix, each of `create_file`,
`read_file` and `list_files` returns its containment-violation error string
and leaves the filesystem untouched (the guard runs before any filesystem
access; for `list_files` the argument is non-empty, since an empty argument
denotes the working directory itself). -/
theorem c1_containment_checked (cwd : String) (fs : FS) (content filename encoding : String)
    (h : pyStartsWith (abspath cwd (normpath filename)) cwd = false) :
    create_file cwd fs content filename =
      .ret ("Error: Cannot write files outside the current working directory. Path: " ++
        filename) fs ∧
    read_file cwd fs filename encoding =
      .ret ("Error: Cannot read files outside the current working directory. Path: " ++
        filename) fs ∧
    (filename ≠ "" →
      list_files cwd fs filename =
        .ret ("Error: Cannot list files outside the current working directory. Path: " ++
          filename) fs) := by
  refine ⟨?_, ?_, fun hne => ?_⟩
  · simp [create_file, h]
  · simp [read_file, h]
  · simp [list_files, h, hne]

/-- Witness for `c1_containment_checked` at the spec's own example
`../../etc/passwd`. -/
theorem c1_containment_checked_witness :
    pyStartsWith (abspath "/home/user" (normpath "../../etc/passwd")) "/home/user" = false ∧
    create_file "/home/user" ⟨[], [], 0⟩ "x" "../../etc/passwd" =
      .ret "Error: Cannot write files outside the current working directory. Path: ../../etc/passwd"
        ⟨[], [], 0⟩ ∧
    list_files "/home/user" ⟨[], [], 0⟩ "../../etc/passwd" =
      .ret "Error: Cannot list files outside the current working directory. Path: ../../etc/passwd"
        ⟨[], [], 0⟩ := by
  have h := c1_containment_checked "/home/user" ⟨[], [], 0⟩ "x" "../../etc/passwd" "utf-8"
    (by decide)
  exact ⟨by decide, h.1, h.2.2 (by decide)⟩

/-! ## Claim C2: containment before every filesystem operation -/

/-- C2 (code bug).  `compile_latex_document` does apply the containment
check to its `.tex` path, but `create_latex_document` applies no
containment check at all: it builds `os.path.join(cwd, output_filename)`,
which an absolute `output_filename` overrides entirely, and writes there.
With working directory `/home/user` and output path `/tmp/evil.tex` —
outside the working tree — the document is written to `/tmp/evil.tex` and
success is reported, while `compile_latex_document` on the very same path
returns the containment error. -/
theorem c2_create_latex_document_escapes_cwd :
    inTreeB "/home/user" (pyJoin "/home/user" "/tmp/evil.tex") = false ∧
    create_latex_document (fun _ => "RENDERED") "/home/cfg/templates" ["article", "beamer"]
      "/home/user" c2fs "article" "/tmp/evil.tex" [] none none none none none =
      .ret ("LaTeX document successfully created at: ../../tmp/evil.tex" ++
        "\nTemplate used: article\nSection files included: 0" ++
        "\nYou can now compile this LaTeX document to generate the final output.") c2fsAfter ∧
    findFile c2fsAfter.files ["tmp", "evil.tex"] = some ⟨"RENDERED", 0⟩ ∧
    compile_latex_document true (fun fs _ _ => (0, "", fs)) "/home/user" c2fs "/tmp/evil.tex" =
      .ret "Error: Cannot compile files outside the current working directory. Path: /tmp/evil.tex"
        c2fs :=
  ⟨by decide, rfl, rfl, rfl⟩

/-! ## Claim C4: create followed by read

Helper lemmas about the filesystem primitives, then the round-trip theorem. -/


theorem findFile_setFile (l : List (List String × FileData)) (k : List String) (d : FileData) :
    findFile (setFile l k d) k = some d := by
  induction l with
  | nil => simp [setFile, findFile]
  | cons hd tl ih =>
    by_cases h : hd.1 = k
    · simp [setFile, findFile, h]
    · simp [setFile, findFile, h, ih]

theorem openWrite_ok (fs : FS) (k : List String) (content : String)
    (h1 : k ∉ fs.dirs) (h2 : k ≠ []) (h3 : k.dropLast = [] ∨ k.dropLast ∈ fs.dirs) :
    openWrite fs k content =
      some { fs with files := setFile fs.files k ⟨content, fs.now⟩, now := fs.now + 1 } := by
  simp [openWrite, h1, h2, h3]

theorem mkdirsAux_mem (files : List (List String × FileData)) :
    ∀ (cs : List String) (dirs : List (List String)) (pre x : List String),
      x ∈ (mkdirsAux files dirs pre cs).1 → x ∈ dirs ∨ x.length ≤ pre.length + cs.length := by
  intro cs
  induction cs with
  | nil => intro dirs pre x hx; simp [mkdirsAux] at hx; exact Or.inl hx
  | cons c cs ih =>
    intro dirs pre x hx
    simp only [mkdirsAux] at hx
    by_cases hf : (findFile files (pre ++ [c])).isSome
    · simp [hf] at hx; exact Or.inl hx
    · simp [hf] at hx
      rcases ih _ _ _ hx with h | h
      · by_cases hd : pre ++ [c] ∈ dirs
        · simp [hd] at h; exact Or.inl h
        · simp [hd, List.mem_append] at h
          rcases h with h | h
          · exact Or.inl h
          · right; subst h
            simp only [List.length_append, List.length_cons, List.length_nil]; omega
      · right
        simp only [List.length_append, List.length_cons, List.length_nil] at h ⊢; omega

theorem mkdirsAux_sub (files : List (List String × FileData)) :
    ∀ (cs : List String) (dirs : List (List String)) (pre x : List String),
      x ∈ dirs → x ∈ (mkdirsAux files dirs pre cs).1 := by
  intro cs
  induction cs with
  | nil => intro dirs pre x hx; simpa [mkdirsAux] using hx
  | cons c cs ih =>
    intro dirs pre x hx
    simp only [mkdirsAux]
    by_cases hf : (findFile files (pre ++ [c])).isSome
    · simp [hf]; exact hx
    · simp [hf]
      apply ih
      by_cases hd : pre ++ [c] ∈ dirs
      · simp [hd]; exact hx
      · simp [hd, List.mem_append]; exact Or.inl hx

theorem mkdirsAux_ok (files : List (List String × FileData)) :
    ∀ (cs : List String) (dirs : List (List String)) (pre : List String),
      (∀ j, j < cs.length → findFile files (pre ++ cs.take (j + 1)) = none) →
      (mkdirsAux files dirs pre cs).2 = true ∧
        (cs = [] ∨ pre ++ cs ∈ (mkdirsAux files dirs pre cs).1) := by
  intro cs
  induction cs with
  | nil => intro dirs pre _; simp [mkdirsAux]
  | cons c cs ih =>
    intro dirs pre h
    have h0 : findFile files (pre ++ [c]) = none := by
      have := h 0 (by simp)
      simpa using this
    simp only [mkdirsAux, h0]
    rw [if_neg (by simp)]
    have hrec := ih (if pre ++ [c] ∈ dirs then dirs else dirs ++ [pre ++ [c]]) (pre ++ [c])
      (fun j hj => by
        have := h (j + 1) (by simp; omega)
        simpa [List.append_assoc] using this)
    refine ⟨hrec.1, Or.inr ?_⟩
    rcases hrec.2 with hnil | hmem
    · subst hnil
      have hp : pre ++ [c] ∈ (if pre ++ [c] ∈ dirs then dirs else dirs ++ [pre ++ [c]]) := by
        by_cases hd : pre ++ [c] ∈ dirs
        · simpa [hd]
        · simp [hd]
      simpa using mkdirsAux_sub files [] _ (pre ++ [c]) _ hp
    · simpa [List.append_assoc] using hmem

theorem read_file_after_write (cwd : String) (fs1 : FS) (filename encoding fp content : String)
    (mt : Nat)
    (hfp : fp = abspath cwd (normpath filename))
    (hpre : pyStartsWith fp cwd = true)
    (hfind : findFile fs1.files (parts fp) = some ⟨content, mt⟩)
    (hnd : parts fp ∉ fs1.dirs) :
    read_file cwd fs1 filename encoding =
      .ret ("File: " ++ relpath cwd fp cwd ++ " (" ++ sizeStr content.utf8ByteSize ++
        ", last modified: " ++ timeStr mt ++ ")\n\n" ++ content) fs1 := by
  subst hfp
  simp [read_file, hpre, pathExistsB, isfileB, hfind, hnd]

theorem create_file_ok (cwd : String) (fs : FS) (content filename fp : String)
    (hfp : fp = abspath cwd (normpath filename))
    (hpre : pyStartsWith fp cwd = true)
    (hnotdir : parts fp ∉ fs.dirs)
    (hdirname : parts (pydirname fp) = (parts fp).dropLast)
    (hne : parts fp ≠ [])
    (hanc : ∀ j, j < (parts (pydirname fp)).length →
      findFile fs.files ((parts (pydirname fp)).take (j + 1)) = none) :
    ∃ dirs1, parts fp ∉ dirs1 ∧
      create_file cwd fs content filename =
        .ret ("File successfully created at: " ++ relpath cwd fp cwd)
          ⟨dirs1, setFile fs.files (parts fp) ⟨content, fs.now⟩, fs.now + 1⟩ := by
  subst hfp
  by_cases hcase : pydirname (abspath cwd (normpath filename)) ≠ "" ∧
      ¬ pathExistsB fs (pydirname (abspath cwd (normpath filename)))
  · have hok := mkdirsAux_ok fs.files (parts (pydirname (abspath cwd (normpath filename))))
      fs.dirs [] (fun j hj => by simpa using hanc j hj)
    have hnd1 : parts (abspath cwd (normpath filename)) ∉
        (mkdirsAux fs.files fs.dirs [] (parts (pydirname (abspath cwd (normpath filename))))).1 := by
      intro hmem
      rcases mkdirsAux_mem fs.files _ fs.dirs [] _ hmem with hin | hlen
      · exact hnotdir hin
      · rw [hdirname] at hlen
        have h1 : (parts (abspath cwd (normpath filename))).dropLast.length =
            (parts (abspath cwd (normpath filename))).length - 1 := by
          simp [List.length_dropLast]
        have h2 : 1 ≤ (parts (abspath cwd (normpath filename))).length := by
          cases hp : parts (abspath cwd (normpath filename)) with
          | nil => exact absurd hp hne
          | cons a l => simp
        simp only [List.length_nil, Nat.zero_add] at hlen
        omega
    have h3 : (parts (abspath cwd (normpath filename))).dropLast = [] ∨
        (parts (abspath cwd (normpath filename))).dropLast ∈
          (mkdirsAux fs.files fs.dirs [] (parts (pydirname (abspath cwd (normpath filename))))).1 := by
      rcases hok.2 with hD0 | hDm
      · left; rw [← hdirname]; exact hD0
      · right; rw [← hdirname]; simpa using hDm
    refine ⟨_, hnd1, ?_⟩
    have hw := openWrite_ok
      ⟨(mkdirsAux fs.files fs.dirs [] (parts (pydirname (abspath cwd (normpath filename))))).1,
        fs.files, fs.now⟩ (parts (abspath cwd (normpath filename))) content hnd1 hne h3
    simp only at hw
    simp [create_file, hpre, hcase.1, hcase.2, makedirs, hok.1, hw]
  · have hDcase : pydirname (abspath cwd (normpath filename)) = "" ∨
        pathExistsB fs (pydirname (abspath cwd (normpath filename))) := by
      by_cases h1 : pydirname (abspath cwd (normpath filename)) = ""
      · exact Or.inl h1
      · right
        by_cases h2 : pathExistsB fs (pydirname (abspath cwd (normpath filename)))
        · exact h2
        · exact absurd ⟨h1, h2⟩ hcase
    have h3 : (parts (abspath cwd (normpath filename))).dropLast = [] ∨
        (parts (abspath cwd (normpath filename))).dropLast ∈ fs.dirs := by
      rcases hDcase with h0 | hex
      · left; rw [← hdirname, h0]; rfl
      · by_cases hlen0 : (parts (pydirname (abspath cwd (normpath filename)))).length = 0
        · left; rw [← hdirname]; exact List.length_eq_zero.mp hlen0
        · have hfn : findFile fs.files (parts (pydirname (abspath cwd (normpath filename)))) = none := by
            have := hanc ((parts (pydirname (abspath cwd (normpath filename)))).length - 1) (by omega)
            rwa [Nat.sub_add_cancel (by omega), List.take_length] at this
          simp only [pathExistsB, Bool.or_eq_true, decide_eq_true_eq] at hex
          rcases hex with (h | h) | h
          · left; rw [← hdirname]; exact h
          · right; rw [← hdirname]; exact h
          · rw [hfn] at h; simp at h
    refine ⟨fs.dirs, hnotdir, ?_⟩
    have hw := openWrite_ok fs (parts (abspath cwd (normpath filename))) content hnotdir hne h3
    rcases hDcase with h0 | hex
    · simp [create_file, hpre, h0, hw]
    · simp [create_file, hpre, hex, hw]

/-- C4 (confirmed).  For every content string (the empty string included)
and every path inside the working directory — made precise as: its
normalized absolute form `fp` passes the containment guard, is non-root,
does not denote an existing directory, and no ancestor component is an
existing regular file — `create_file` succeeds and an immediate
`read_file` of the same path returns the metadata header (relative path,
bucketed size, modification timestamp) followed by exactly the content
written. -/
theorem c4_create_then_read (cwd : String) (fs : FS) (content filename encoding fp : String)
    (hfp : fp = abspath cwd (normpath filename))
    (hpre : pyStartsWith fp cwd = true)
    (hnotdir : parts fp ∉ fs.dirs)
    (hdirname : parts (pydirname fp) = (parts fp).dropLast)
    (hne : parts fp ≠ [])
    (hanc : ∀ j, j < (parts (pydirname fp)).length →
      findFile fs.files ((parts (pydirname fp)).take (j + 1)) = none) :
    ∃ fs1, create_file cwd fs content filename =
        .ret ("File successfully created at: " ++ relpath cwd fp cwd) fs1 ∧
      read_file cwd fs1 filename encoding =
        .ret ("File: " ++ relpath cwd fp cwd ++ " (" ++ sizeStr content.utf8ByteSize ++
          ", last modified: " ++ timeStr fs.now ++ ")\n\n" ++ content) fs1 := by
  obtain ⟨dirs1, hnd1, hc⟩ :=
    create_file_ok cwd fs content filename fp hfp hpre hnotdir hdirname hne hanc
  refine ⟨_, hc, ?_⟩
  exact read_file_after_write cwd _ filename encoding fp content fs.now hfp hpre
    (by simpa using findFile_setFile fs.files (parts fp) ⟨content, fs.now⟩) hnd1

/-- Witness for `c4_create_then_read`: writing `hi` to `notes/file.txt`
under working directory `/w` at clock 5. -/
theorem c4_create_then_read_witness :
    pyStartsWith (abspath "/w" (normpath "notes/file.txt")) "/w" = true ∧
    (∃ fs1, create_file "/w" ⟨[["w"]], [], 5⟩ "hi" "notes/file.txt" =
        .ret ("File successfully created at: " ++
          relpath "/w" (abspath "/w" (normpath "notes/file.txt")) "/w") fs1 ∧
      read_file "/w" fs1 "notes/file.txt" "utf-8" =
        .ret ("File: " ++ relpath "/w" (abspath "/w" (normpath "notes/file.txt")) "/w" ++
          " (" ++ sizeStr ("hi" : String).utf8ByteSize ++ ", last modified: " ++ timeStr 5 ++
          ")\n\n" ++ "hi") fs1) :=
  ⟨by decide,
    c4_create_then_read "/w" ⟨[["w"]], [], 5⟩ "hi" "notes/file.txt" "utf-8" _ rfl (by decide)
      (by decide) (by decide) (by decide) (fun j hj => rfl)⟩

/-! ## Claims C5 and C10: section and abstract validation in the assembler -/


theorem validateSections_missing (fs : FS) (cwd outdir : String) (l : List String) :
    (validateSections fs cwd outdir l).2 =
      l.filter (fun s => !(pathExistsB fs (pyJoin cwd s) && isfileB fs (pyJoin cwd s))) := by
  induction l with
  | nil => rfl
  | cons s rest ih =>
    by_cases h : pathExistsB fs (pyJoin cwd s) ∧ isfileB fs (pyJoin cwd s)
    · simp [validateSections, h, ih]
    · simp [validateSections, h, ih]
      simp at h
      by_cases h1 : pathExistsB fs (pyJoin cwd s)
      · simp [h1] at h ⊢; simp [h]
      · simp [h1]

theorem validateSections_all_ok (fs : FS) (cwd outdir : String) (l : List String)
    (hall : ∀ s ∈ l, pathExistsB fs (pyJoin cwd s) ∧ isfileB fs (pyJoin cwd s)) :
    (validateSections fs cwd outdir l).2 = [] := by
  rw [validateSections_missing]
  rw [List.filter_eq_nil]
  intro s hs
  simp [hall s hs]

/-- C5 (confirmed).  Whenever at least one requested section path does not
resolve to an existing regular file, `create_latex_document` (with a valid
template type whose template file is present) returns an error naming
exactly the missing paths — the filter of the request list by
non-existence, in request order, all together — and leaves the filesystem
unchanged (no output file is written). -/
theorem c5_missing_sections (render : TemplateData → String)
    (templates_dir : String) (available_templates : List String) (cwd : String) (fs : FS)
    (template_type output_filename : String) (section_files : List String)
    (title author date abstract institute : Option String)
    (htype : template_type ∈ available_templates)
    (htmpl : isfileB fs (pyJoin templates_dir (template_type ++ ".tex.j2")) = true)
    (hmiss : ∃ s ∈ section_files,
      ¬ (pathExistsB fs (pyJoin cwd s) ∧ isfileB fs (pyJoin cwd s))) :
    create_latex_document render templates_dir available_templates cwd fs template_type
      output_filename section_files title author date abstract institute =
      .ret ("Error: The following section files do not exist: " ++
        String.intercalate ", " (section_files.filter
          (fun s => !(pathExistsB fs (pyJoin cwd s) && isfileB fs (pyJoin cwd s))))) fs := by
  have hm := validateSections_missing fs cwd
    (pydirname (pyJoin cwd output_filename)) section_files
  have hne : (validateSections fs cwd (pydirname (pyJoin cwd output_filename))
      section_files).2 ≠ [] := by
    rw [hm]
    obtain ⟨s, hs, hbad⟩ := hmiss
    intro hnil
    have : s ∈ List.filter (fun s => !(pathExistsB fs (pyJoin cwd s) &&
        isfileB fs (pyJoin cwd s))) section_files := by
      rw [List.mem_filter]
      refine ⟨hs, ?_⟩
      simp only [Bool.not_eq_true']
      rw [Bool.and_eq_false_iff]
      by_cases h1 : pathExistsB fs (pyJoin cwd s)
      · right
        by_cases h2 : isfileB fs (pyJoin cwd s)
        · exact absurd ⟨h1, h2⟩ hbad
        · simpa using h2
      · left; simpa using h1
    rw [hnil] at this
    simp at this
  simp only [create_latex_document]
  rw [if_neg (by simp [htype]), if_neg (by simp [htmpl]), if_pos hne, hm]

/-- C10 (confirmed).  First conjunct: for every template type, when a
non-empty abstract argument is supplied whose path does not resolve to an
existing regular file, the call fails with the abstract-does-not-exist
error and writes nothing.  Second conjunct: for the `beamer` template with
a valid abstract file, the data handed to the template renderer carries
`abstract := none` — the abstract is validated but never passed on. -/
theorem c10_abstract_validation
    (render : TemplateData → String) (templates_dir : String) (available_templates : List String)
    (cwd : String) (fs : FS) (template_type output_filename : String)
    (section_files : List String) (title author date institute : Option String) (a : String)
    (htype : template_type ∈ available_templates)
    (htmpl : isfileB fs (pyJoin templates_dir (template_type ++ ".tex.j2")) = true)
    (hall : ∀ s ∈ section_files, pathExistsB fs (pyJoin cwd s) ∧ isfileB fs (pyJoin cwd s))
    (ha : a ≠ "")
    (hnot : ¬ (pathExistsB fs (pyJoin cwd a) ∧ isfileB fs (pyJoin cwd a))) :
    create_latex_document render templates_dir available_templates cwd fs template_type
      output_filename section_files title author date (some a) institute =
      .ret ("Error: Abstract file does not exist: " ++ a) fs ∧
    (∀ (render2 : TemplateData → String) (t2 a2 d2 : Option String),
      create_latex_document render2 "/cfg" ["article", "beamer"] "/w" c10fs "beamer" "pres" []
        t2 a2 d2 (some "abs.tex") none =
        .ret ("LaTeX document successfully created at: pres.tex" ++
          "\nTemplate used: beamer\nSection files included: 0" ++
          "\nYou can now compile this LaTeX document to generate the final output.")
          ⟨c10fs.dirs, setFile c10fs.files ["w", "pres.tex"]
            ⟨render2 ⟨t2, a2, d2, [], none, none⟩, 3⟩, 4⟩) := by
  constructor
  · have hmz := validateSections_all_ok fs cwd
      (pydirname (pyJoin cwd output_filename)) section_files hall
    simp only [create_latex_document]
    rw [if_neg (by simp [htype]), if_neg (by simp [htmpl]), if_neg (by simp [hmz])]
    simp [pyTruthyOpt, ha, hnot]
  · intro render2 t2 a2 d2
    rfl

/-- Witness for `c5_missing_sections`: one existing and one missing section. -/
theorem c5_missing_sections_witness :
    ("article" ∈ ["article", "beamer"]) ∧
    isfileB c5fs (pyJoin "/cfg" ("article" ++ ".tex.j2")) = true ∧
    create_latex_document (fun _ => "R") "/cfg" ["article", "beamer"] "/w" c5fs "article" "out"
      ["sec1.tex", "missing.tex"] none none none none none =
      .ret "Error: The following section files do not exist: missing.tex" c5fs := by
  refine ⟨by decide, by decide, ?_⟩
  have h := c5_missing_sections (fun _ => "R") "/cfg" ["article", "beamer"] "/w" c5fs "article"
    "out" ["sec1.tex", "missing.tex"] none none none none none (by decide) (by decide)
    ⟨"missing.tex", by decide, by decide⟩
  exact h.trans (by rfl)

/-- Witness for `c10_abstract_validation`: a missing abstract under the
`beamer` template. -/
theorem c10_abstract_validation_witness :
    ("beamer" ∈ ["article", "beamer"]) ∧
    isfileB c10fs (pyJoin "/cfg" ("beamer" ++ ".tex.j2")) = true ∧
    ("nope.tex" ≠ "") ∧
    ¬ (pathExistsB c10fs (pyJoin "/w" "nope.tex") ∧ isfileB c10fs (pyJoin "/w" "nope.tex")) ∧
    create_latex_document (fun _ => "R") "/cfg" ["article", "beamer"] "/w" c10fs "beamer" "pres"
      [] none none none (some "nope.tex") none =
      .ret "Error: Abstract file does not exist: nope.tex" c10fs := by
  refine ⟨by decide, by decide, by decide, by decide, ?_⟩
  exact (c10_abstract_validation (fun _ => "R") "/cfg" ["article", "beamer"] "/w" c10fs "beamer"
    "pres" [] none none none none "nope.tex" (by decide) (by decide)
    (fun s hs => absurd hs (List.not_mem_nil s)) (by decide) (by decide)).1

/-! ## Claims C9 and C6: blank-line collapse and truncation -/


theorem runsLe2_replicate (l : List Char) :
    ∀ (m r : Nat), runsLe2 r (List.replicate m '\n' ++ l) = runsLe2 (r + m) l := by
  intro m
  induction m with
  | zero => intro r; simp
  | succ m ih =>
    intro r
    rw [List.replicate_succ, List.cons_append]
    show runsLe2 r ('\n' :: (List.replicate m '\n' ++ l)) = _
    rw [show runsLe2 r ('\n' :: (List.replicate m '\n' ++ l)) =
      runsLe2 (r + 1) (List.replicate m '\n' ++ l) from by simp [runsLe2]]
    rw [ih (r + 1)]
    congr 1
    omega

theorem collapseGo_runs (s : List Char) : ∀ n, runsLe2 0 (collapseGo n s) = true := by
  induction s with
  | nil =>
    intro n
    show runsLe2 0 (List.replicate (if n ≥ 3 then 2 else n) '\n') = true
    rw [show (List.replicate (if n ≥ 3 then 2 else n) '\n') =
      (List.replicate (if n ≥ 3 then 2 else n) '\n') ++ [] from by simp]
    rw [runsLe2_replicate]
    simp [runsLe2]
    split <;> omega
  | cons c cs ih =>
    intro n
    by_cases hc : c = '\n'
    · rw [show collapseGo n (c :: cs) = collapseGo (n + 1) cs from by simp [collapseGo, hc]]
      exact ih (n + 1)
    · rw [show collapseGo n (c :: cs) =
        List.replicate (if n ≥ 3 then 2 else n) '\n' ++ c :: collapseGo 0 cs from by
          simp [collapseGo, hc]]
      rw [runsLe2_replicate]
      rw [show runsLe2 (0 + (if n ≥ 3 then 2 else n)) (c :: collapseGo 0 cs) =
        (decide ((0 + (if n ≥ 3 then 2 else n)) ≤ 2) && runsLe2 0 (collapseGo 0 cs)) from by
          simp [runsLe2, hc]]
      rw [ih 0]
      simp
      split <;> omega

theorem filter_replicate_nl (f : Char → Bool) (hf : f '\n' = false) :
    ∀ m, (List.replicate m '\n').filter f = [] := by
  intro m
  induction m with
  | zero => rfl
  | succ m ih => rw [List.replicate_succ, List.filter_cons, hf]; simpa using ih

theorem collapseGo_filter (s : List Char) :
    ∀ n, (collapseGo n s).filter (fun c => decide (c ≠ '\n')) =
      s.filter (fun c => decide (c ≠ '\n')) := by
  induction s with
  | nil =>
    intro n
    show (List.replicate (if n ≥ 3 then 2 else n) '\n').filter _ = _
    rw [filter_replicate_nl _ (by simp)]
    rfl
  | cons c cs ih =>
    intro n
    by_cases hc : c = '\n'
    · rw [show collapseGo n (c :: cs) = collapseGo (n + 1) cs from by simp [collapseGo, hc]]
      rw [ih (n + 1), hc]
      simp
    · rw [show collapseGo n (c :: cs) =
        List.replicate (if n ≥ 3 then 2 else n) '\n' ++ c :: collapseGo 0 cs from by
          simp [collapseGo, hc]]
      rw [List.filter_append, filter_replicate_nl _ (by simp)]
      simp [hc]
      simpa using ih 0

theorem collapseGo_fix (s : List Char) :
    ∀ n, runsLe2 n s = true → collapseGo n s = List.replicate n '\n' ++ s := by
  induction s with
  | nil =>
    intro n h
    simp [runsLe2] at h
    show List.replicate (if n ≥ 3 then 2 else n) '\n' = _
    rw [if_neg (by omega)]
    simp
  | cons c cs ih =>
    intro n h
    by_cases hc : c = '\n'
    · rw [show collapseGo n (c :: cs) = collapseGo (n + 1) cs from by simp [collapseGo, hc]]
      rw [ih (n + 1) (by simpa [runsLe2, hc] using h)]
      subst hc
      rw [List.replicate_succ' n '\n']
      simp
    · simp only [runsLe2, if_neg hc, Bool.and_eq_true, decide_eq_true_eq] at h
      rw [show collapseGo n (c :: cs) =
        List.replicate (if n ≥ 3 then 2 else n) '\n' ++ c :: collapseGo 0 cs from by
          simp [collapseGo, hc]]
      rw [ih 0 h.2, if_neg (by omega)]
      simp

theorem collapseGo_replicate (l : List Char) :
    ∀ (m n : Nat), collapseGo n (List.replicate m '\n' ++ l) = collapseGo (n + m) l := by
  intro m
  induction m with
  | zero => intro n; simp
  | succ m ih =>
    intro n
    rw [List.replicate_succ, List.cons_append]
    rw [show collapseGo n ('\n' :: (List.replicate m '\n' ++ l)) =
      collapseGo (n + 1) (List.replicate m '\n' ++ l) from by simp [collapseGo]]
    rw [ih (n + 1)]
    congr 1
    omega

/-- C9 (confirmed).  The `re.sub(r"\n\x7b3,\x7d", "\n\n", ...)` step of
`visit_webpage`: (i) its output never contains a run of 3 or more newlines
— every such run has been collapsed to at most one blank line; (ii) inputs
with no such run pass through unchanged, so shorter runs are not shrunk
further; (iii) all non-newline characters are preserved in order; and
(iv) a maximal run of `k ≥ 3` newlines before further content becomes
exactly two newlines, i.e. exactly one blank line. -/
theorem c9_blank_line_collapse :
    (∀ s : String, runsLe2 0 (pyCollapseNewlines s).data = true) ∧
    (∀ s : String, runsLe2 0 s.data = true → pyCollapseNewlines s = s) ∧
    (∀ s : String, (pyCollapseNewlines s).data.filter (fun c => decide (c ≠ '\n')) =
      s.data.filter (fun c => decide (c ≠ '\n'))) ∧
    (∀ (k : Nat) (c : Char) (rest : List Char), 3 ≤ k → c ≠ '\n' →
      collapseGo 0 (List.replicate k '\n' ++ c :: rest) =
        '\n' :: '\n' :: c :: collapseGo 0 rest) := by
  refine ⟨fun s => collapseGo_runs s.data 0, fun s h => ?_,
    fun s => collapseGo_filter s.data 0, fun k c rest hk hc => ?_⟩
  · have hfix := collapseGo_fix s.data 0 h
    simp only [List.replicate, List.nil_append] at hfix
    show String.mk (collapseGo 0 s.data) = s
    rw [hfix]
  · rw [collapseGo_replicate]
    rw [show (0 + k) = k from by omega]
    rw [show collapseGo k (c :: rest) =
      List.replicate (if k ≥ 3 then 2 else k) '\n' ++ c :: collapseGo 0 rest from by
        simp [collapseGo, hc]]
    rw [if_pos (by omega : k ≥ 3)]
    rfl

/-- Witness for `c9_blank_line_collapse` on concrete strings. -/
theorem c9_blank_line_collapse_witness :
    runsLe2 0 (pyCollapseNewlines "a\n\n\n\nb").data = true ∧
    (runsLe2 0 ("a\n\nb" : String).data = true ∧ pyCollapseNewlines "a\n\nb" = "a\n\nb") ∧
    (pyCollapseNewlines "a\n\n\n\nb").data.filter (fun c => decide (c ≠ '\n')) =
      ("a\n\n\n\nb" : String).data.filter (fun c => decide (c ≠ '\n')) ∧
    (3 ≤ 4 ∧ ('b' : Char) ≠ '\n' ∧
      collapseGo 0 (List.replicate 4 '\n' ++ 'b' :: []) =
        '\n' :: '\n' :: 'b' :: collapseGo 0 []) := by
  have h := c9_blank_line_collapse
  exact ⟨h.1 _, ⟨by decide, h.2.1 _ (by decide)⟩, h.2.2.1 _,
    by decide, by decide, h.2.2.2 4 'b' [] (by decide) (by decide)⟩

/-- C6 (amended).  `extract_pdf_text` truncates the (ASCII-replaced)
fetched text to exactly the 100000-character ceiling, appends the literal
truncation marker, and then prefixes the source URL, as the claim states.
`visit_webpage`, however, prefixes the URL first and truncates the
prefixed text: whenever that prefixed text exceeds the ceiling, the
returned text is the prefixed text cut to exactly the ceiling with the
marker appended (so the URL prefix counts toward the ceiling). -/
theorem c6_truncation :
    (∀ url body : String, (asciiReplace body).length > maxOutputLength →
      pdfFinalize url body = "PDF Source: " ++ url ++ "\n\n" ++
        (pyTake (asciiReplace body) maxOutputLength ++ truncMarker)) ∧
    (∀ url body : String,
      ("Source: " ++ url ++ "\n\n" ++ pyCollapseNewlines (pyStrip body)).length >
          maxOutputLength →
      visitFinalize url body =
        pyTake ("Source: " ++ url ++ "\n\n" ++ pyCollapseNewlines (pyStrip body))
          maxOutputLength ++ truncMarker) := by
  constructor
  · intro url body h
    simp only [pdfFinalize]
    rw [if_pos h]
  · intro url body h
    simp only [visitFinalize]
    rw [if_pos h]

theorem dropWhile_ws_replicate_a (n : Nat) :
    (List.replicate n 'a').dropWhile Char.isWhitespace = List.replicate n 'a' := by
  induction n with
  | zero => rfl
  | succ n ih => rw [List.replicate_succ, List.dropWhile_cons]; simp

theorem pyStrip_bigA : pyStrip bigA = bigA := by
  show String.mk _ = _
  rw [show bigA.data = List.replicate 100001 'a' from rfl]
  rw [dropWhile_ws_replicate_a, List.reverse_replicate, dropWhile_ws_replicate_a,
    List.reverse_replicate]
  rfl

theorem runsLe2_replicate_a (n : Nat) : runsLe2 0 (List.replicate n 'a') = true := by
  induction n with
  | zero => rfl
  | succ n ih => rw [List.replicate_succ]; simpa [runsLe2] using ih

theorem pyCollapse_bigA : pyCollapseNewlines bigA = bigA := by
  show String.mk _ = _
  have := collapseGo_fix bigA.data 0 (by
    rw [show bigA.data = List.replicate 100001 'a' from rfl]
    exact runsLe2_replicate_a 100001)
  simp only [List.replicate, List.nil_append] at this
  rw [this]

theorem bigA_length : bigA.length = 100001 := by
  show (List.replicate 100001 'a').length = 100001
  rw [List.length_replicate]

/-- C6 (counterexample).  For `visit_webpage` the claim as stated fails:
on a 100001-character body the code returns the prefixed text truncated to
the ceiling, not the URL prefix attached to the truncated fetched text —
the two differ (their lengths are 100038 and 100049). -/
theorem c6_visit_prefix_counterexample :
    bigA.length > maxOutputLength ∧
    visitFinalize "u" bigA ≠
      "Source: " ++ "u" ++ "\n\n" ++ (pyTake bigA maxOutputLength ++ truncMarker) := by
  have hsc : pyCollapseNewlines (pyStrip bigA) = bigA := by rw [pyStrip_bigA, pyCollapse_bigA]
  have hpref : ("Source: " ++ "u" ++ "\n\n" ++ pyCollapseNewlines (pyStrip bigA)).length =
      100012 := by
    rw [hsc]
    simp only [String.length_append]
    rw [bigA_length]
    rfl
  have hv : visitFinalize "u" bigA =
      pyTake ("Source: " ++ "u" ++ "\n\n" ++ pyCollapseNewlines (pyStrip bigA))
        maxOutputLength ++ truncMarker := by
    simp only [visitFinalize]
    rw [if_pos (by rw [hpref]; decide)]
  constructor
  · rw [bigA_length]; decide
  · rw [hv]
    intro heq
    have hlen := congrArg String.length heq
    simp only [String.length_append] at hlen
    have h1 : (pyTake ("Source: " ++ "u" ++ "\n\n" ++ pyCollapseNewlines (pyStrip bigA))
        maxOutputLength).length = 100000 := by
      show (List.take _ _).length = _
      rw [List.length_take]
      have hd : ("Source: " ++ "u" ++ "\n\n" ++
          pyCollapseNewlines (pyStrip bigA)).data.length = 100012 := hpref
      rw [hd]
      decide
    have h2 : (pyTake bigA maxOutputLength).length = 100000 := by
      show (List.take _ _).length = _
      rw [List.length_take]
      have hd : bigA.data.length = 100001 := bigA_length
      rw [hd]
      decide
    rw [h1, h2] at hlen
    rw [show ("Source: " : String).length = 8 from rfl, show ("u" : String).length = 1 from rfl,
      show ("\n\n" : String).length = 2 from rfl,
      show truncMarker.length = 38 from rfl] at hlen
    omega

/-- Prefixed-text length for the shared 100001-character fixture. -/
theorem c6_prefix_length :
    ("Source: " ++ "u" ++ "\n\n" ++ pyCollapseNewlines (pyStrip bigA)).length = 100012 := by
  rw [pyStrip_bigA, pyCollapse_bigA]
  simp only [String.length_append]
  rw [bigA_length]
  rfl

/-- Witness for `c6_truncation` at a 100001-character body. -/
theorem c6_truncation_witness :
    (asciiReplace bigA).length > maxOutputLength ∧
    pdfFinalize "u" bigA = "PDF Source: " ++ "u" ++ "\n\n" ++
      (pyTake (asciiReplace bigA) maxOutputLength ++ truncMarker) ∧
    ("Source: " ++ "u" ++ "\n\n" ++ pyCollapseNewlines (pyStrip bigA)).length >
      maxOutputLength ∧
    visitFinalize "u" bigA =
      pyTake ("Source: " ++ "u" ++ "\n\n" ++ pyCollapseNewlines (pyStrip bigA))
        maxOutputLength ++ truncMarker := by
  have ha : (asciiReplace bigA).length = 100001 := by
    show (List.map _ _).length = _
    rw [List.length_map]
    exact bigA_length
  have h1 : (asciiReplace bigA).length > maxOutputLength := by rw [ha]; decide
  have h2 : ("Source: " ++ "u" ++ "\n\n" ++ pyCollapseNewlines (pyStrip bigA)).length >
      maxOutputLength := by rw [c6_prefix_length]; decide
  exact ⟨h1, c6_truncation.1 "u" bigA h1, h2, c6_truncation.2 "u" bigA h2⟩

/-! ## Claim C3: ensure_defaults merge invariants -/


theorem keysT_cons (k : String) (v : Toml) (rest : TomlTable) :
    keysT (.cons k v rest) = k :: keysT rest := rfl

theorem lookupT_cons (k : String) (v : Toml) (rest : TomlTable) (q : String) :
    lookupT (.cons k v rest) q = if k = q then some v else lookupT rest q := rfl

theorem setT_cons (k' : String) (v' : Toml) (rest : TomlTable) (k : String) (nv : Toml) :
    setT (.cons k' v' rest) k nv =
      if k' = k then .cons k' nv rest else .cons k' v' (setT rest k nv) := rfl

theorem lookupT_snocT_ne (k : String) (v : Toml) (q : String) (hq : q ≠ k) :
    ∀ c, lookupT (snocT c k v) q = lookupT c q := by
  refine TomlTable.spineInd ?_ ?_
  · show (if k = q then some v else none) = none
    rw [if_neg (Ne.symm hq)]
  · intro k' v' rest ih
    show lookupT (.cons k' v' (snocT rest k v)) q = _
    rw [lookupT_cons, lookupT_cons, ih]

theorem lookupT_snocT_none (k : String) (v : Toml) :
    ∀ c, lookupT c k = none → lookupT (snocT c k v) k = some v := by
  refine TomlTable.spineInd ?_ ?_
  · intro _
    show (if k = k then some v else none) = some v
    rw [if_pos rfl]
  · intro k' v' rest ih h
    rw [lookupT_cons] at h
    by_cases hk : k' = k
    · rw [if_pos hk] at h; cases h
    · rw [if_neg hk] at h
      show lookupT (.cons k' v' (snocT rest k v)) k = some v
      rw [lookupT_cons, if_neg hk, ih h]

theorem lookupT_snocT_some (k : String) (v : Toml) (q : String) (x : Toml) :
    ∀ c, lookupT c q = some x → lookupT (snocT c k v) q = some x := by
  refine TomlTable.spineInd ?_ ?_
  · intro h; cases h
  · intro k' v' rest ih h
    rw [lookupT_cons] at h
    show lookupT (.cons k' v' (snocT rest k v)) q = some x
    rw [lookupT_cons]
    by_cases hk : k' = q
    · rwa [if_pos hk] at h ⊢
    · rw [if_neg hk] at h ⊢
      exact ih h

theorem lookupT_setT_ne (k : String) (nv : Toml) (q : String) (hq : q ≠ k) :
    ∀ c, lookupT (setT c k nv) q = lookupT c q := by
  refine TomlTable.spineInd ?_ ?_
  · rfl
  · intro k' v' rest ih
    rw [setT_cons]
    by_cases h : k' = k
    · rw [if_pos h, lookupT_cons, lookupT_cons, if_neg (h ▸ Ne.symm hq),
        if_neg (h ▸ Ne.symm hq)]
    · rw [if_neg h, lookupT_cons, lookupT_cons, ih]

theorem lookupT_setT_self (k : String) (nv : Toml) :
    ∀ c cv, lookupT c k = some cv → lookupT (setT c k nv) k = some nv := by
  refine TomlTable.spineInd ?_ ?_
  · intro cv h; cases h
  · intro k' v' rest ih cv h
    rw [lookupT_cons] at h
    rw [setT_cons]
    by_cases hk : k' = k
    · rw [if_pos hk, lookupT_cons, if_pos hk]
    · rw [if_neg hk] at h
      rw [if_neg hk, lookupT_cons, if_neg hk]
      exact ih cv h

theorem setT_self (k : String) :
    ∀ c cv, lookupT c k = some cv → setT c k cv = c := by
  refine TomlTable.spineInd ?_ ?_
  · intro cv h; cases h
  · intro k' v' rest ih cv h
    rw [lookupT_cons] at h
    rw [setT_cons]
    by_cases hk : k' = k
    · rw [if_pos hk] at h
      injection h with h
      rw [if_pos hk, h]
    · rw [if_neg hk] at h
      rw [if_neg hk, ih cv h]

theorem compatB_congr :
    ∀ d c c', (∀ q, q ∈ keysT d → lookupT c' q = lookupT c q) →
      compatB c d = true → compatB c' d = true := by
  refine TomlTable.spineInd ?_ ?_
  · intro c c' _ _; rfl
  · intro k dv rest ih c c' hq h
    unfold compatB at h ⊢
    rw [Bool.and_eq_true] at h ⊢
    have hk := hq k (by rw [keysT_cons]; exact List.mem_cons_self k _)
    rw [hk]
    exact ⟨h.1, ih c c' (fun q hh => hq q (by rw [keysT_cons]; exact List.mem_cons_of_mem _ hh))
      h.2⟩

theorem containsDefs_congr :
    ∀ d c c', (∀ q, q ∈ keysT d → lookupT c' q = lookupT c q) →
      containsDefs c d = true → containsDefs c' d = true := by
  refine TomlTable.spineInd ?_ ?_
  · intro c c' _ _; rfl
  · intro k dv rest ih c c' hq h
    unfold containsDefs at h ⊢
    rw [Bool.and_eq_true] at h ⊢
    have hk := hq k (by rw [keysT_cons]; exact List.mem_cons_self k _)
    rw [hk]
    exact ⟨h.1, ih c c' (fun q hh => hq q (by rw [keysT_cons]; exact List.mem_cons_of_mem _ hh))
      h.2⟩

theorem nodup_head_notin {k : String} {v : Toml} {rest : TomlTable}
    (h : nodupKeysB (.cons k v rest) = true) : k ∉ keysT rest := by
  unfold nodupKeysB at h
  rw [Bool.and_eq_true, Bool.and_eq_true] at h
  have := h.1.1
  simpa using this

theorem nodup_rest {k : String} {v : Toml} {rest : TomlTable}
    (h : nodupKeysB (.cons k v rest) = true) : nodupKeysB rest = true := by
  unfold nodupKeysB at h
  rw [Bool.and_eq_true, Bool.and_eq_true] at h
  exact h.2

theorem nodup_table {k : String} {t : TomlTable} {rest : TomlTable}
    (h : nodupKeysB (.cons k (.table t) rest) = true) : nodupKeysB t = true := by
  unfold nodupKeysB at h
  rw [Bool.and_eq_true, Bool.and_eq_true] at h
  exact h.1.2


theorem containsDefs_self : ∀ t, nodupKeysB t = true → containsDefs t t = true := by
  have main : ∀ t, ∀ c, nodupKeysB t = true →
      (∀ q, q ∈ keysT t → lookupT c q = lookupT t q) → containsDefs c t = true := by
    refine TomlTable.deepInd ?_ ?_ ?_ ?_ ?_
    · intro c _ _; rfl
    · intro k t rest iht ihrest c hnd hq
      unfold containsDefs
      rw [Bool.and_eq_true]
      constructor
      · rw [hq k (by rw [keysT_cons]; exact List.mem_cons_self k _), lookupT_cons, if_pos rfl]
        exact iht t (nodup_table hnd) (fun q _ => rfl)
      · apply ihrest c (nodup_rest hnd)
        intro q hh
        rw [hq q (by rw [keysT_cons]; exact List.mem_cons_of_mem _ hh), lookupT_cons,
          if_neg (fun he => nodup_head_notin hnd (by rw [he]; exact hh))]
    all_goals
      intro k v rest ihrest c hnd hq
      unfold containsDefs
      rw [Bool.and_eq_true]
      refine ⟨?_, ?_⟩
      · rw [hq k (by rw [keysT_cons]; exact List.mem_cons_self k _), lookupT_cons, if_pos rfl]
      · apply ihrest c (nodup_rest hnd)
        intro q hh
        rw [hq q (by rw [keysT_cons]; exact List.mem_cons_of_mem _ hh), lookupT_cons,
          if_neg (fun he => nodup_head_notin hnd (by rw [he]; exact hh))]
  intro t h
  exact main t t h (fun _ _ => rfl)

theorem lookupPath_two (t : TomlTable) (k q : String) (rest : List String) :
    lookupPath t (k :: q :: rest) =
      (match lookupT t k with
       | some (.table sub) => lookupPath sub (q :: rest)
       | _ => none) := rfl

theorem lookupPath_snocT (c : TomlTable) (k : String) (dv : Toml) (p : List String) (v : Toml)
    (h : lookupPath c p = some v) : lookupPath (snocT c k dv) p = some v := by
  match p with
  | [] => cases h
  | [q] => exact lookupT_snocT_some k dv q v c h
  | q :: q2 :: rest2 =>
    rw [lookupPath_two] at h ⊢
    match hl : lookupT c q with
    | none => rw [hl] at h; cases h
    | some (.bool b) => rw [hl] at h; cases h
    | some (.str s) => rw [hl] at h; cases h
    | some (.list l) => rw [hl] at h; cases h
    | some (.table sub) =>
      rw [hl] at h
      rw [lookupT_snocT_some k dv q _ c hl]
      exact h

theorem lookupPath_setT_ne (c : TomlTable) (k : String) (nv : Toml) (q : String)
    (hq : q ≠ k) (p2 : List String) :
    lookupPath (setT c k nv) (q :: p2) = lookupPath c (q :: p2) := by
  match p2 with
  | [] => exact lookupT_setT_ne k nv q hq c
  | q2 :: rest2 =>
    rw [lookupPath_two, lookupPath_two, lookupT_setT_ne k nv q hq c]

theorem compat_head_table {c : TomlTable} {k : String} {dt rest : TomlTable} {ct : TomlTable}
    (h : compatB c (.cons k (.table dt) rest) = true)
    (hl : lookupT c k = some (.table ct)) : compatB ct dt = true := by
  unfold compatB at h
  rw [Bool.and_eq_true] at h
  have h1 := h.1
  rw [hl] at h1
  exact h1

theorem compatB_rest {c : TomlTable} {k : String} {dv : Toml} {rest : TomlTable}
    (h : compatB c (.cons k dv rest) = true) : compatB c rest = true := by
  unfold compatB at h
  rw [Bool.and_eq_true] at h
  exact h.2

theorem ensureTbl_lookup_notin :
    ∀ c d, (∀ k', k' ∉ keysT d → lookupT (ensureTbl c d).1 k' = lookupT c k') := by
  intro c d
  induction c, d using ensureTbl.induct with
  | case1 config => intro k' _; rfl
  | case2 config k dv rest hlook ih =>
    intro k' hk'
    rw [keysT_cons] at hk'
    have hne : k' ≠ k := fun he => hk' (by rw [he]; exact List.mem_cons_self k _)
    have hnr : k' ∉ keysT rest := fun hh => hk' (List.mem_cons_of_mem _ hh)
    unfold ensureTbl
    rw [hlook]
    show lookupT (ensureTbl (snocT config k dv) rest).1 k' = _
    rw [ih k' hnr, lookupT_snocT_ne k dv k' hne]
  | case3 config k rest dt ct s hlook iht ihrest =>
    rw [show s = ensureTbl ct dt from rfl] at ihrest
    intro k' hk'
    rw [keysT_cons] at hk'
    have hne : k' ≠ k := fun he => hk' (by rw [he]; exact List.mem_cons_self k _)
    have hnr : k' ∉ keysT rest := fun hh => hk' (List.mem_cons_of_mem _ hh)
    unfold ensureTbl
    rw [hlook]
    show lookupT (ensureTbl (setT config k (Toml.table (ensureTbl ct dt).1)) rest).1 k' = _
    rw [ihrest k' hnr, lookupT_setT_ne k _ k' hne]
  | case4 config k dv rest cv hlook hne ih =>
    intro k' hk'
    rw [keysT_cons] at hk'
    have hnr : k' ∉ keysT rest := fun hh => hk' (List.mem_cons_of_mem _ hh)
    unfold ensureTbl
    rw [hlook]
    cases dv <;> cases cv <;> first
      | exact (hne _ _ rfl rfl).elim
      | exact ih k' hnr

theorem ensureTbl_changed_false :
    ∀ c d, (ensureTbl c d).2 = false → (ensureTbl c d).1 = c := by
  intro c d
  induction c, d using ensureTbl.induct with
  | case1 config => intro _; rfl
  | case2 config k dv rest hlook ih =>
    intro h
    unfold ensureTbl at h
    rw [hlook] at h
    cases h
  | case3 config k rest dt ct s hlook iht ihrest =>
    rw [show s = ensureTbl ct dt from rfl] at ihrest
    intro h
    unfold ensureTbl at h ⊢
    rw [hlook] at h ⊢
    have h' : ((ensureTbl ct dt).2 ||
        (ensureTbl (setT config k (Toml.table (ensureTbl ct dt).1)) rest).2) = false := h
    rw [Bool.or_eq_false_iff] at h'
    have h1 := iht h'.1
    have h2 := ihrest h'.2
    show (ensureTbl (setT config k (Toml.table (ensureTbl ct dt).1)) rest).1 = config
    rw [h2, h1, setT_self k config (Toml.table ct) hlook]
  | case4 config k dv rest cv hlook hne ih =>
    intro h
    unfold ensureTbl at h ⊢
    rw [hlook] at h ⊢
    cases dv <;> cases cv <;> first
      | exact (hne _ _ rfl rfl).elim
      | exact ih h

theorem ensureTbl_preserves :
    ∀ c d, ∀ (p : List String) (v : Toml), lookupPath c p = some v → isTableV v = false →
      lookupPath (ensureTbl c d).1 p = some v := by
  intro c d
  induction c, d using ensureTbl.induct with
  | case1 config => intro p v h1 _; exact h1
  | case2 config k dv rest hlook ih =>
    intro p v h1 h2
    unfold ensureTbl
    rw [hlook]
    exact ih p v (lookupPath_snocT config k dv p v h1) h2
  | case3 config k rest dt ct s hlook iht ihrest =>
    rw [show s = ensureTbl ct dt from rfl] at ihrest
    intro p v h1 h2
    unfold ensureTbl
    rw [hlook]
    show lookupPath (ensureTbl (setT config k (Toml.table (ensureTbl ct dt).1)) rest).1 p =
      some v
    apply ihrest p v ?_ h2
    match p, h1 with
    | [], h1 => cases h1
    | [q], h1 =>
      by_cases hq : q = k
      · subst hq
        have h1x : lookupT config q = some v := h1
        rw [hlook] at h1x
        injection h1x with h1x
        rw [← h1x] at h2
        exact Bool.noConfusion h2
      · show lookupT (setT config k _) q = some v
        rw [lookupT_setT_ne k _ q hq]
        exact h1
    | q :: q2 :: rest2, h1 =>
      by_cases hq : q = k
      · subst hq
        rw [lookupPath_two] at h1
        rw [hlook] at h1
        show lookupPath (setT config q (Toml.table (ensureTbl ct dt).1)) (q :: q2 :: rest2) =
          some v
        rw [lookupPath_two, lookupT_setT_self q _ config _ hlook]
        exact iht (q2 :: rest2) v h1 h2
      · rw [lookupPath_setT_ne config k _ q hq]
        exact h1
  | case4 config k dv rest cv hlook hne ih =>
    intro p v h1 h2
    unfold ensureTbl
    rw [hlook]
    cases dv <;> cases cv <;> first
      | exact (hne _ _ rfl rfl).elim
      | exact ih p v h1 h2

theorem containsDefs_cons_scalar (R : TomlTable) (k : String) (dv : Toml) (rest : TomlTable)
    (hdv : isTableV dv = false) (cv : Toml) (hl : lookupT R k = some cv)
    (hrest : containsDefs R rest = true) : containsDefs R (.cons k dv rest) = true := by
  unfold containsDefs
  rw [Bool.and_eq_true]
  refine ⟨?_, hrest⟩
  rw [hl]
  cases dv with
  | table dt => exact Bool.noConfusion hdv
  | bool b => cases cv <;> rfl
  | str sx => cases cv <;> rfl
  | list l => cases cv <;> rfl

theorem ensureTbl_contains :
    ∀ c d, nodupKeysB d = true → compatB c d = true →
      containsDefs (ensureTbl c d).1 d = true := by
  intro c d
  induction c, d using ensureTbl.induct with
  | case1 config => intro _ _; rfl
  | case2 config k dv rest hlook ih =>
    intro hnd hcompat
    unfold ensureTbl
    rw [hlook]
    show containsDefs (ensureTbl (snocT config k dv) rest).1 (.cons k dv rest) = true
    unfold containsDefs
    rw [Bool.and_eq_true]
    have hknr : k ∉ keysT rest := nodup_head_notin hnd
    have hlook2 : lookupT (ensureTbl (snocT config k dv) rest).1 k = some dv := by
      rw [ensureTbl_lookup_notin (snocT config k dv) rest k hknr]
      exact lookupT_snocT_none k dv config hlook
    constructor
    · rw [hlook2]
      cases dv with
      | table dt => exact containsDefs_self dt (nodup_table hnd)
      | bool b => rfl
      | str s => rfl
      | list l => rfl
    · apply ih (nodup_rest hnd)
      apply compatB_congr rest config (snocT config k dv) ?_ (compatB_rest hcompat)
      intro q hq
      exact lookupT_snocT_ne k dv q (fun he => hknr (by rw [← he]; exact hq)) config
  | case3 config k rest dt ct s hlook iht ihrest =>
    rw [show s = ensureTbl ct dt from rfl] at ihrest
    intro hnd hcompat
    unfold ensureTbl
    rw [hlook]
    show containsDefs (ensureTbl (setT config k (Toml.table (ensureTbl ct dt).1)) rest).1
      (.cons k (Toml.table dt) rest) = true
    unfold containsDefs
    rw [Bool.and_eq_true]
    have hknr : k ∉ keysT rest := nodup_head_notin hnd
    have hcd : compatB ct dt = true := compat_head_table hcompat hlook
    have hlook2 : lookupT (ensureTbl (setT config k (Toml.table (ensureTbl ct dt).1)) rest).1 k =
        some (Toml.table (ensureTbl ct dt).1) := by
      rw [ensureTbl_lookup_notin _ rest k hknr]
      exact lookupT_setT_self k _ config _ hlook
    constructor
    · rw [hlook2]
      exact iht (nodup_table hnd) hcd
    · apply ihrest (nodup_rest hnd)
      apply compatB_congr rest config _ ?_ (compatB_rest hcompat)
      intro q hq
      exact lookupT_setT_ne k _ q (fun he => hknr (by rw [← he]; exact hq)) config
  | case4 config k dv rest cv hlook hne ih =>
    intro hnd hcompat
    have hknr : k ∉ keysT rest := nodup_head_notin hnd
    have hlook2 : lookupT (ensureTbl config rest).1 k = some cv := by
      rw [ensureTbl_lookup_notin config rest k hknr]
      exact hlook
    have hrest : containsDefs (ensureTbl config rest).1 rest = true :=
      ih (nodup_rest hnd) (compatB_rest hcompat)
    unfold ensureTbl
    rw [hlook]
    cases dv with
    | table dt =>
      have h1 : compatB config (.cons k (Toml.table dt) rest) = true := hcompat
      unfold compatB at h1
      rw [Bool.and_eq_true] at h1
      have h2 := h1.1
      rw [hlook] at h2
      cases cv with
      | table ct => exact (hne dt ct rfl rfl).elim
      | bool b => simp at h2
      | str sx => simp at h2
      | list l => simp at h2
    | bool b =>
      cases cv <;> exact containsDefs_cons_scalar _ k _ rest rfl _ hlook2 hrest
    | str sx =>
      cases cv <;> exact containsDefs_cons_scalar _ k _ rest rfl _ hlook2 hrest
    | list l =>
      cases cv <;> exact containsDefs_cons_scalar _ k _ rest rfl _ hlook2 hrest

theorem nodup_DEFAULTS (tdir : String) : nodupKeysB (DEFAULTS tdir) = true := rfl

theorem compat_init (tdir : String) :
    compatB (tt [("initialized", Toml.bool true)]) (DEFAULTS tdir) = true := rfl

theorem c3_particular (tdir : String) :
    containsDefs (configManagerInit tdir (some (tt [("initialized", Toml.bool true)]))).1
      (DEFAULTS tdir) = true ∧
    lookupT (configManagerInit tdir (some (tt [("initialized", Toml.bool true)]))).1
      "initialized" = some (Toml.bool true) ∧
    (configManagerInit tdir (some (tt [("initialized", Toml.bool true)]))).2 = true :=
  ⟨rfl, rfl, rfl⟩




/-- C3 (counterexample).  The claim as stated fails: a persisted value of a
non-mapping type at a key where `DEFAULTS` holds a nested mapping shadows
the whole subtree.  With `orchestrator = "x"` persisted, `ensure_defaults`
finds the key present, skips the recursion (the isinstance guard), and the
default key path `orchestrator.model` is absent from the merged
configuration. -/
theorem c3_type_shadow_counterexample :
    lookupPath (DEFAULTS "T") ["orchestrator", "model"] =
      some (Toml.str "openrouter/anthropic/claude-3.7-sonnet") ∧
    lookupPath (configManagerInit "T" (some (tt [("orchestrator", Toml.str "x")]))).1
      ["orchestrator", "model"] = none ∧
    containsDefs (configManagerInit "T" (some (tt [("orchestrator", Toml.str "x")]))).1
      (DEFAULTS "T") = false :=
  ⟨rfl, rfl, rfl⟩

/-- C3 (amended).  `ensure_defaults` guarantees: (i) provided the persisted
configuration is type-compatible with `DEFAULTS` (wherever the defaults
hold a nested mapping, a persisted value at that key, when present, is also
a mapping), every key path of `DEFAULTS` exists in the merged
configuration; (ii) persisted non-mapping values (scalars and lists) are
never overwritten, at any nesting depth; (iii) when the changed flag is not
set — the merge is saved exactly when it is — the configuration is
unchanged, so whenever at least one key was added the merged result is
saved; and (iv) in particular, from a persisted file containing only
`initialized = true` the loaded configuration contains every default key
path with `initialized` still `true`, and is saved. -/
theorem c3_ensure_defaults :
    (∀ (tdir : String) (persisted : TomlTable),
      compatB persisted (DEFAULTS tdir) = true →
      containsDefs (configManagerInit tdir (some persisted)).1 (DEFAULTS tdir) = true) ∧
    (∀ (tdir : String) (persisted : TomlTable) (p : List String) (v : Toml),
      lookupPath persisted p = some v → isTableV v = false →
      lookupPath (configManagerInit tdir (some persisted)).1 p = some v) ∧
    (∀ (tdir : String) (persisted : TomlTable),
      (configManagerInit tdir (some persisted)).2 = false →
      (configManagerInit tdir (some persisted)).1 = persisted) ∧
    (∀ tdir : String,
      containsDefs (configManagerInit tdir (some (tt [("initialized", Toml.bool true)]))).1
        (DEFAULTS tdir) = true ∧
      lookupT (configManagerInit tdir (some (tt [("initialized", Toml.bool true)]))).1
        "initialized" = some (Toml.bool true) ∧
      (configManagerInit tdir (some (tt [("initialized", Toml.bool true)]))).2 = true) := by
  refine ⟨?_, ?_, ?_, c3_particular⟩
  · intro tdir persisted hc
    exact ensureTbl_contains persisted (DEFAULTS tdir) (nodup_DEFAULTS tdir) hc
  · intro tdir persisted p v h1 h2
    exact ensureTbl_preserves persisted (DEFAULTS tdir) p v h1 h2
  · intro tdir persisted h
    exact ensureTbl_changed_false persisted (DEFAULTS tdir) h

/-- Witness for `c3_ensure_defaults`: the `initialized = true` persisted
file and, for the no-change clause, a persisted file equal to the defaults. -/
theorem c3_ensure_defaults_witness :
    compatB (tt [("initialized", Toml.bool true)]) (DEFAULTS "T") = true ∧
    containsDefs (configManagerInit "T" (some (tt [("initialized", Toml.bool true)]))).1
      (DEFAULTS "T") = true ∧
    lookupPath (tt [("initialized", Toml.bool true)]) ["initialized"] =
      some (Toml.bool true) ∧
    lookupPath (configManagerInit "T" (some (tt [("initialized", Toml.bool true)]))).1
      ["initialized"] = some (Toml.bool true) ∧
    (configManagerInit "T" (some (DEFAULTS "T"))).2 = false ∧
    (configManagerInit "T" (some (DEFAULTS "T"))).1 = DEFAULTS "T" := by
  refine ⟨compat_init "T", c3_ensure_defaults.1 "T" _ (compat_init "T"), rfl,
    c3_ensure_defaults.2.1 "T" _ ["initialized"] _ rfl rfl, rfl,
    c3_ensure_defaults.2.2.1 "T" _ rfl⟩

/-! ## Claims C7 and C8: compiler invoker and directory listing -/


/-- C7 (confirmed).  With the containment, existence, extension and
latexmk-availability checks passed, `compile_latex_document` reports
success — naming the produced PDF path — exactly when the external run
exits with code 0 and the expected `.pdf` exists afterwards; in every
other case it returns the failure message built from the captured-output
lines containing a case-insensitive 'error' (or the generic message when
no such line exists, per `errorLinesMsg`). -/
theorem c7_compile_result (run : FS → String → String → Nat × String × FS)
    (cwd : String) (fs : FS) (tex_file_path fp : String) (rc : Nat) (out : String)
    (fs2 : FS) (pdf_path : String)
    (hfp : fp = abspath cwd (normpath tex_file_path))
    (hpre : pyStartsWith fp cwd = true)
    (hex : pathExistsB fs fp = true)
    (htex : pyEndsWith fp ".tex" = true)
    (hrun : run fs (pydirname fp) (pybasename fp) = (rc, out, fs2))
    (hpdf : pdf_path = pyJoin (pydirname fp) (splitextRoot (pybasename fp) ++ ".pdf")) :
    ((rc = 0 ∧ pathExistsB fs2 pdf_path = true) →
      compile_latex_document true run cwd fs tex_file_path =
        .ret ("LaTeX document successfully compiled: " ++ relpath cwd pdf_path cwd) fs2) ∧
    (¬ (rc = 0 ∧ pathExistsB fs2 pdf_path = true) →
      compile_latex_document true run cwd fs tex_file_path =
        .ret ("LaTeX compilation failed: " ++ errorLinesMsg out) fs2) := by
  subst hfp
  subst hpdf
  constructor
  · intro hc
    simp only [compile_latex_document]
    rw [if_neg (by simp [hpre]), if_neg (by simp [hex]), if_neg (by simp [htex]),
      if_neg (by simp), hrun]
    rw [if_neg (by simp [hc.1, hc.2])]
  · intro hc
    simp only [compile_latex_document]
    rw [if_neg (by simp [hpre]), if_neg (by simp [hex]), if_neg (by simp [htex]),
      if_neg (by simp), hrun]
    rw [if_pos (not_and_or.mp hc)]

/-- Characters with equal code points are equal. -/
theorem char_toNat_inj {a b : Char} (h : a.toNat = b.toNat) : a = b := by
  have := congrArg Char.ofNat h
  rwa [Char.ofNat_toNat, Char.ofNat_toNat] at this

/-- Totality of the code-point lexicographic order. -/
theorem lexLe_total : ∀ a b : List Char, lexLe a b = true ∨ lexLe b a = true := by
  intro a
  induction a with
  | nil => intro b; left; rfl
  | cons x xs ih =>
    intro b
    cases b with
    | nil => right; rfl
    | cons y ys =>
      by_cases hxy : x = y
      · subst hxy
        simp only [lexLe, if_pos rfl]
        exact ih ys
      · simp only [lexLe, if_neg hxy, if_neg (Ne.symm hxy), decide_eq_true_eq]
        have hne : x.toNat ≠ y.toNat := fun h => hxy (char_toNat_inj h)
        omega

/-- Transitivity of the code-point lexicographic order. -/
theorem lexLe_trans : ∀ a b c : List Char,
    lexLe a b = true → lexLe b c = true → lexLe a c = true := by
  intro a
  induction a with
  | nil => intro b c _ _; rfl
  | cons x xs ih =>
    intro b c hab hbc
    cases b with
    | nil => cases hab
    | cons y ys =>
      cases c with
      | nil => cases hbc
      | cons z zs =>
        by_cases hxy : x = y <;> by_cases hyz : y = z
        · subst hxy; subst hyz
          simp only [lexLe, if_pos rfl] at hab hbc ⊢
          exact ih ys zs hab hbc
        · subst hxy
          simp only [lexLe, if_pos rfl, if_neg hyz] at hab hbc ⊢
          exact hbc
        · subst hyz
          simp only [lexLe, if_pos rfl, if_neg hxy] at hab hbc ⊢
          exact hab
        · simp only [lexLe, if_neg hxy, if_neg hyz, decide_eq_true_eq] at hab hbc
          have hxz : x ≠ z := fun he => by rw [he] at hab; omega
          simp only [lexLe, if_neg hxz, decide_eq_true_eq]
          omega

/-- Inserting into a list permutes consing onto it. -/
theorem insSorted_perm (x : String) : ∀ l, List.Perm (insSorted x l) (x :: l) := by
  intro l
  induction l with
  | nil => exact List.Perm.refl _
  | cons y ys ih =>
    by_cases h : lexLe x.data y.data
    · simp only [insSorted, if_pos h]
      exact List.Perm.refl _
    · simp only [insSorted, if_neg h]
      exact (List.Perm.cons y ih).trans (List.Perm.swap x y ys)

/-- Insertion preserves sortedness. -/
theorem insSorted_pairwise (x : String) :
    ∀ l, List.Pairwise strLeP l → List.Pairwise strLeP (insSorted x l) := by
  intro l
  induction l with
  | nil => intro _; simp [insSorted]
  | cons y ys ih =>
    intro h
    rw [List.pairwise_cons] at h
    by_cases hxy : lexLe x.data y.data
    · simp only [insSorted, if_pos hxy]
      rw [List.pairwise_cons]
      refine ⟨?_, List.pairwise_cons.mpr h⟩
      intro z hz
      cases hz with
      | head => exact hxy
      | tail _ hz => exact lexLe_trans x.data y.data z.data hxy (h.1 z hz)
    · simp only [insSorted, if_neg hxy]
      rw [List.pairwise_cons]
      constructor
      · intro z hz
        rw [(insSorted_perm x ys).mem_iff] at hz
        cases hz with
        | head =>
          rcases lexLe_total x.data y.data with hh | hh
          · exact absurd hh hxy
          · exact hh
        | tail _ hz => exact h.1 z hz
      · exact ih h.2

/-- A string sort returns a permutation of its input. -/
theorem sortStr_perm : ∀ l : List String, List.Perm (sortStr l) l := by
  intro l
  induction l with
  | nil => exact List.Perm.refl _
  | cons x xs ih =>
    show List.Perm (insSorted x (sortStr xs)) (x :: xs)
    exact (insSorted_perm x (sortStr xs)).trans (List.Perm.cons x ih)

/-- A string sort returns a sorted list. -/
theorem sortStr_pairwise : ∀ l : List String, List.Pairwise strLeP (sortStr l) := by
  intro l
  induction l with
  | nil => exact List.Pairwise.nil
  | cons x xs ih => exact insSorted_pairwise x (sortStr xs) ih

/-- Rearranging the nested conditional build of the listing into header,
directory section, file section. -/
theorem sectionsBuild (h : String) (dl fl ds fls : List String) :
    (if fls ≠ [] then
       (if ds ≠ [] then [h] ++ ["Directories:"] ++ dl else [h]) ++ ["\nFiles:"] ++ fl
     else (if ds ≠ [] then [h] ++ ["Directories:"] ++ dl else [h])) =
    [h] ++ (if ds ≠ [] then "Directories:" :: dl else []) ++
      (if fls ≠ [] then "\nFiles:" :: fl else []) := by
  by_cases h1 : ds ≠ [] <;> by_cases h2 : fls ≠ [] <;> simp [h1, h2]

/-- C8 (confirmed).  `list_files` on an empty directory returns the
"no files found" message (shown for both the default working-directory
argument and an explicit one); on any non-empty directory (again for both
argument forms) it returns the header line followed by a Directories
section holding exactly the subdirectory children sorted by `sortStr` and
then a Files section holding exactly the file children sorted by
`sortStr`, each file annotated by `fileEntry` with bucketed size and
modification time, each section present exactly when its group is
non-empty; and `sortStr` indeed sorts: its output is a permutation of its
input that is pairwise ordered under code-point comparison. -/
theorem c8_list_files :
    (∀ (cwd : String) (fs : FS),
      isdirB fs cwd = true → childrenNames fs (parts cwd) = [] →
      list_files cwd fs "" = .ret ("No files found in directory: .") fs) ∧
    (∀ (cwd : String) (fs : FS) (d : String), d ≠ "" →
      pyStartsWith (abspath cwd (normpath d)) cwd = true →
      pathExistsB fs (abspath cwd (normpath d)) = true →
      isdirB fs (abspath cwd (normpath d)) = true →
      childrenNames fs (parts (abspath cwd (normpath d))) = [] →
      list_files cwd fs d =
        .ret ("No files found in directory: " ++ relpath cwd (abspath cwd (normpath d)) cwd)
          fs) ∧
    (∀ (cwd : String) (fs : FS),
      isdirB fs cwd = true → childrenNames fs (parts cwd) ≠ [] →
      list_files cwd fs "" = .ret (String.intercalate "\n"
        (["Files and directories in '.':\n"] ++
         (if (childrenNames fs (parts cwd)).filter
              (fun it => isdirB fs (pyJoin cwd it)) ≠ [] then
            "Directories:" ::
              (sortStr ((childrenNames fs (parts cwd)).filter
                (fun it => isdirB fs (pyJoin cwd it)))).map
                (fun x => "  📁 " ++ x ++ "/")
          else []) ++
         (if (childrenNames fs (parts cwd)).filter
              (fun it => ¬ isdirB fs (pyJoin cwd it)) ≠ [] then
            "\nFiles:" ::
              (sortStr ((childrenNames fs (parts cwd)).filter
                (fun it => ¬ isdirB fs (pyJoin cwd it)))).map
                (fileEntry fs cwd)
          else []))) fs) ∧
    (∀ (cwd : String) (fs : FS) (d : String), d ≠ "" →
      pyStartsWith (abspath cwd (normpath d)) cwd = true →
      pathExistsB fs (abspath cwd (normpath d)) = true →
      isdirB fs (abspath cwd (normpath d)) = true →
      childrenNames fs (parts (abspath cwd (normpath d))) ≠ [] →
      list_files cwd fs d = .ret (String.intercalate "\n"
        (["Files and directories in '" ++ relpath cwd (abspath cwd (normpath d)) cwd ++
            "':\n"] ++
         (if (childrenNames fs (parts (abspath cwd (normpath d)))).filter
              (fun it => isdirB fs (pyJoin (abspath cwd (normpath d)) it)) ≠ [] then
            "Directories:" ::
              (sortStr ((childrenNames fs (parts (abspath cwd (normpath d)))).filter
                (fun it => isdirB fs (pyJoin (abspath cwd (normpath d)) it)))).map
                (fun x => "  📁 " ++ x ++ "/")
          else []) ++
         (if (childrenNames fs (parts (abspath cwd (normpath d)))).filter
              (fun it => ¬ isdirB fs (pyJoin (abspath cwd (normpath d)) it)) ≠ [] then
            "\nFiles:" ::
              (sortStr ((childrenNames fs (parts (abspath cwd (normpath d)))).filter
                (fun it => ¬ isdirB fs (pyJoin (abspath cwd (normpath d)) it)))).map
                (fileEntry fs (abspath cwd (normpath d)))
          else []))) fs) ∧
    (∀ l : List String,
      List.Perm (sortStr l) l ∧ List.Pairwise strLeP (sortStr l)) := by
  refine ⟨?_, ?_, ?_, ?_, ?_⟩
  · intro cwd fs h1 h2
    simp [list_files, h1, h2]
  · intro cwd fs d hd h1 h2 h3 h4
    simp [list_files, hd, h1, h2, h3, h4]
  · intro cwd fs h3 h4
    simp only [list_files]
    simp only [if_true]
    rw [if_neg (by simp [h3]), if_neg (by simp [h4])]
    exact congrArg (fun l => PyResult.ret (String.intercalate "\n" l) fs)
      (sectionsBuild _ _ _ _ _)
  · intro cwd fs d hd h1 h2 h3 h4
    simp only [list_files]
    rw [if_neg hd]
    rw [if_neg (by simp [h1]), if_neg (by simp [h2])]
    simp only []
    rw [if_neg (by simp [h3]), if_neg (by simp [h4])]
    exact congrArg (fun l => PyResult.ret (String.intercalate "\n" l) fs)
      (sectionsBuild _ _ _ _ _)
  · intro l
    exact ⟨sortStr_perm l, sortStr_pairwise l⟩

/-- Witness for `c7_compile_result`: a successful compilation of `doc.tex`. -/
theorem c7_compile_result_witness :
    pyStartsWith (abspath "/w" (normpath "doc.tex")) "/w" = true ∧
    pathExistsB c7fs (abspath "/w" (normpath "doc.tex")) = true ∧
    pyEndsWith (abspath "/w" (normpath "doc.tex")) ".tex" = true ∧
    compile_latex_document true c7run "/w" c7fs "doc.tex" =
      .ret ("LaTeX document successfully compiled: " ++
        relpath "/w" (pyJoin (pydirname (abspath "/w" (normpath "doc.tex")))
          (splitextRoot (pybasename (abspath "/w" (normpath "doc.tex"))) ++ ".pdf")) "/w")
        c7fsAfter := by
  refine ⟨by decide, by decide, by decide, ?_⟩
  exact (c7_compile_result c7run "/w" c7fs "doc.tex" _ 0 "" c7fsAfter _ rfl (by decide)
    (by decide) (by decide) rfl rfl).1 ⟨rfl, by decide⟩

/-- Witness for `c8_list_files`: empty listings of the working directory
and of an explicit empty subdirectory, and the non-empty listing of a
directory holding subfolder `sub` and files stored unsorted (`b.txt`
before `a.txt`). -/
theorem c8_list_files_witness :
    isdirB c8empty "/w" = true ∧ childrenNames c8empty (parts "/w") = [] ∧
    list_files "/w" c8empty "" = .ret "No files found in directory: ." c8empty ∧
    list_files "/w" c8emptySub "e" =
      .ret ("No files found in directory: " ++ relpath "/w" (abspath "/w" (normpath "e")) "/w")
        c8emptySub ∧
    childrenNames c8fs (parts "/w") ≠ [] ∧
    list_files "/w" c8fs "" =
      .ret ("Files and directories in '.':\n\nDirectories:\n  📁 sub/\n\nFiles:\n" ++
        "  📄 a.txt (2 B, 1970-01-01 00:00:00)\n  📄 b.txt (3 B, 1970-01-01 00:00:00)")
        c8fs ∧
    list_files "/w" c8fs "." =
      .ret ("Files and directories in '.':\n\nDirectories:\n  📁 sub/\n\nFiles:\n" ++
        "  📄 a.txt (2 B, 1970-01-01 00:00:00)\n  📄 b.txt (3 B, 1970-01-01 00:00:00)")
        c8fs := by
  refine ⟨by decide, rfl, ?_, ?_, by decide, ?_, ?_⟩
  · exact c8_list_files.1 "/w" c8empty (by decide) rfl
  · exact c8_list_files.2.1 "/w" c8emptySub "e" (by decide) (by decide) (by decide) (by decide)
      rfl
  · exact (c8_list_files.2.2.1 "/w" c8fs (by decide) (by decide)).trans rfl
  · exact (c8_list_files.2.2.2.1 "/w" c8fs "." (by decide) (by decide) (by decide) (by decide)
      (by decide)).trans rfl

end CheapResearch
